import Mathlib

/-!
Verification of the mongoquick profile-and-connection subsystem.

Shallow embedding of `src/utils/profile-store.ts` (`SecureProfileStore`) and
the `SmartConnectionManager` connection module.  Imperative TypeScript state
(`this.cachedProfiles`, `this.lastModified`, the on-disk file, the pooled
connection map, the circuit-breaker map) becomes explicit state records that
each operation threads through.  Wall-clock reads (`Date.now()`, `new Date()`)
become explicit `Nat` timestamps passed per operation; the AES cipher and the
`randomBytes` iv source become parameters; every network round trip becomes an
oracle argument describing what the server did.
-/

set_option autoImplicit false

namespace MongoQuick

/-! ## Association-list maps mirroring JS `Map` semantics

JS `Map.set` on an existing key replaces the value in place (keeping insertion
order); on a fresh key it appends.  `Map.delete` removes the entry.  JS `Map`
keys are unique by construction; here uniqueness is an invariant.
-/

def alget {α : Type} : List (String × α) → String → Option α
  | [], _ => none
  | e :: rest, k => if e.1 = k then some e.2 else alget rest k

def alset {α : Type} : List (String × α) → String → α → List (String × α)
  | [], k, v => [(k, v)]
  | e :: rest, k, v => if e.1 = k then (k, v) :: rest else e :: alset rest k v

def aldel {α : Type} : List (String × α) → String → List (String × α)
  | [], _ => []
  | e :: rest, k => if e.1 = k then rest else e :: aldel rest k

def alhas {α : Type} (m : List (String × α)) (k : String) : Bool :=
  (alget m k).isSome

def alkeys {α : Type} (m : List (String × α)) : List String :=
  m.map Prod.fst

/-- `String.prototype.startsWith`, modelled structurally on the character
list (equivalent to the byte-level library routine, which does not reduce in
the kernel). -/
def strStartsWith (s pre : String) : Bool :=
  pre.toList.isPrefixOf s.toList

/-! ## Data model (`ConnectionProfile`, `ProfileMetadata`, stored forms) -/

/-- `ProfileMetadata` from the types module: every field optional. Timestamps
(`Date`) are modelled as `Nat` epoch instants. -/
structure ProfileMetadata where
  createdAt : Option Nat
  lastUsed : Option Nat
  lastTested : Option Nat
  environment : Option String
  description : Option String
  isDefault : Option Bool
deriving DecidableEq

def defaultMeta : ProfileMetadata :=
  { createdAt := none, lastUsed := none, lastTested := none,
    environment := none, description := none, isDefault := none }

/-- `ConnectionProfile`: `options` is an untyped blob in the source
(`options?: any` in `StoredProfile`, a record of tuning flags in the types
module); it is never interpreted by the store, so it is modelled as an opaque
optional string payload. -/
structure ConnectionProfile where
  name : String
  uri : String
  database : Option String
  profileAlias : Option String
  tags : Option (List String)
  options : Option String
  metadata : Option ProfileMetadata
deriving DecidableEq

/-- On-disk `StoredProfile`: `uri` replaced by ciphertext plus iv; `metadata`
is required (the encryptor supplies a fallback). -/
structure StoredProfile where
  name : String
  encryptedUri : String
  database : Option String
  profileAlias : Option String
  tags : Option (List String)
  options : Option String
  metadata : ProfileMetadata
  iv : String
deriving DecidableEq

/-- File-level container `ProfileStorage`. `createdAt` is an ISO string in the
source; modelled as an opaque string. -/
structure ProfileStorage where
  profiles : List StoredProfile
  defaultProfile : Option String
  version : String
  createdAt : String
deriving DecidableEq

/-- The symmetric cipher (`aes-256-cbc` with the derived key in the source) as
an abstract pair: `enc plaintext iv` and `dec ciphertext iv`, where `dec`
returns `none` when the library call would throw. -/
structure Cipher where
  enc : String → String → String
  dec : String → String → Option String

/-- Correctness of the underlying crypto library: decrypting with the same iv
recovers the plaintext. -/
def CipherCorrect (c : Cipher) : Prop :=
  ∀ u iv, c.dec (c.enc u iv) iv = some u

/-! ## Connection manager data model -/

inductive Topology where
  | single
  | replicaSetNoPrimary
  | replicaSetWithPrimary
  | sharded
  | unknown
deriving DecidableEq

structure ConnectionHealth where
  isConnected : Bool
  latency : Nat
  serverVersion : String
  replicaSet : Option String
  topology : Topology
  connectionCount : Nat
  testedAt : Nat
  error : Option String
deriving DecidableEq

/-- Shape of the duck-typed `serverStatus` reply that `determineTopology`
inspects: presence of `repl` (with truthiness of `ismaster` / `isPrimary` and
the optional `setName`), truthiness of `sharding`, and
`connections?.current`. -/
structure ReplInfo where
  setName : Option String
  ismaster : Bool
  isPrimary : Bool
deriving DecidableEq

structure ServerStatus where
  repl : Option ReplInfo
  sharding : Bool
  connectionsCurrent : Option Nat
deriving DecidableEq

/-- Result of the network round trips performed by `test`: either the gathered
server data plus the time the probes finished, or the thrown error's message
string plus the time of the failure. -/
inductive NetOutcome where
  | success (status : ServerStatus) (buildVersion : String) (endTime : Nat)
  | failure (errMsg : String) (endTime : Nat)

inductive BreakerMode where
  | closed
  | opened
  | halfOpen
deriving DecidableEq

structure CircuitBreakerState where
  failures : Nat
  lastFailure : Option Nat
  state : BreakerMode
  nextAttempt : Option Nat
deriving DecidableEq

structure PooledConnection where
  profile : ConnectionProfile
  lastUsed : Nat
  healthCache : Option ConnectionHealth
  healthCacheExpiry : Option Nat
deriving DecidableEq

structure MgrState where
  connections : List (String × PooledConnection)
  circuitBreakers : List (String × CircuitBreakerState)
deriving DecidableEq

namespace SmartConnectionManager

def healthCacheTTL : Nat := 30000
def maxFailures : Nat := 3
def circuitBreakerTimeout : Nat := 60000

/-- `determineTopology(serverStatus)`. -/
def determineTopology (s : ServerStatus) : Topology :=
  match s.repl with
  | some r => if r.ismaster || r.isPrimary then .replicaSetWithPrimary else .replicaSetNoPrimary
  | none => if s.sharding then .sharded else .single

/-- `test(profile)`: the whole body is a try/catch around the network round
trips, so the oracle outcome decides which branch builds the result; both
branches return a `ConnectionHealth`, never an exception. -/
def test (startTime : Nat) (_p : ConnectionProfile) (outcome : NetOutcome) : ConnectionHealth :=
  match outcome with
  | .success status version endTime =>
    { isConnected := true,
      latency := endTime - startTime,
      serverVersion := version,
      replicaSet := status.repl.bind (fun r => r.setName),
      topology := determineTopology status,
      connectionCount := status.connectionsCurrent.getD 0,
      testedAt := endTime,
      error := none }
  | .failure msg endTime =>
    { isConnected := false,
      latency := endTime - startTime,
      serverVersion := "unknown",
      replicaSet := none,
      topology := .unknown,
      connectionCount := 0,
      testedAt := endTime,
      error := some msg }

/-- `isCircuitBreakerOpen(profileName)`: note it mutates the breaker record on
the open-past-due branch (`breaker.state = 'half-open'`), so the embedded
version returns the updated map alongside the answer.  The comparison
`new Date() > breaker.nextAttempt` is strict. -/
def isCircuitBreakerOpen (now : Nat) (m : List (String × CircuitBreakerState))
    (name : String) : Bool × List (String × CircuitBreakerState) :=
  match alget m name with
  | none => (false, m)
  | some b =>
    match b.state with
    | .opened =>
      match b.nextAttempt with
      | some na =>
        if na < now then (false, alset m name { b with state := .halfOpen })
        else (true, m)
      | none => (true, m)
    | _ => (false, m)

/-- `recordFailure(profileName)`. -/
def recordFailure (now : Nat) (m : List (String × CircuitBreakerState))
    (name : String) : List (String × CircuitBreakerState) :=
  let b0 := (alget m name).getD
    { failures := 0, lastFailure := none, state := .closed, nextAttempt := none }
  let b1 : CircuitBreakerState :=
    { b0 with failures := b0.failures + 1, lastFailure := some now }
  let b2 :=
    if maxFailures ≤ b1.failures then
      { b1 with state := .opened, nextAttempt := some (now + circuitBreakerTimeout) }
    else b1
  alset m name b2

/-- `resetCircuitBreaker(profileName)`. -/
def resetCircuitBreaker (m : List (String × CircuitBreakerState))
    (name : String) : List (String × CircuitBreakerState) :=
  aldel m name

def disabledMsg (name : String) : String :=
  "Connection to '" ++ name ++ "' is temporarily disabled due to repeated failures"

/-- The tail of `connect` after the pooled-connection reuse check: breaker
check, then `createConnection` / `recordFailure`.  `createOk` is the network
oracle for the fresh attempt, `errMsg` the message of the error the driver
would throw on failure, `netBase` the count of network operations already
performed.  The third component counts network round trips. -/
def connectAttempt (now : Nat) (createOk : Bool) (errMsg : String)
    (st : MgrState) (p : ConnectionProfile) (netBase : Nat) :
    Except String Unit × MgrState × Nat :=
  let chk := isCircuitBreakerOpen now st.circuitBreakers p.name
  if chk.1 then
    (.error (disabledMsg p.name), { st with circuitBreakers := chk.2 }, netBase)
  else if createOk then
    (.ok (),
     { connections := alset st.connections p.name
         { profile := p, lastUsed := now, healthCache := none, healthCacheExpiry := none },
       circuitBreakers := resetCircuitBreaker chk.2 p.name },
     netBase + 1)
  else
    (.error errMsg,
     { st with circuitBreakers := recordFailure now chk.2 p.name },
     netBase + 1)

/-- `connect(profile)`.  `pingOk` is the liveness-probe oracle consulted only
when a pooled connection exists (that probe is itself a network round trip and
is counted). -/
def connect (now : Nat) (pingOk createOk : Bool) (errMsg : String)
    (st : MgrState) (p : ConnectionProfile) :
    Except String Unit × MgrState × Nat :=
  match alget st.connections p.name with
  | some existing =>
    if pingOk then
      (.ok (),
       { st with connections := alset st.connections p.name { existing with lastUsed := now } },
       1)
    else connectAttempt now createOk errMsg st p 1
  | none => connectAttempt now createOk errMsg st p 0

/-- The fresh-check tail of `getHealth`: run `test` and cache the result with
a 30-second expiry. -/
def getHealthFresh (now : Nat) (outcome : NetOutcome) (st : MgrState)
    (name : String) (conn : PooledConnection) :
    Option ConnectionHealth × MgrState × Nat :=
  let h := test now conn.profile outcome
  let cached : PooledConnection :=
    { conn with healthCache := some h, healthCacheExpiry := some (now + healthCacheTTL) }
  (some h, { st with connections := alset st.connections name cached }, 1)

/-- `getHealth(profileName)`: no pooled connection means `null` immediately;
otherwise serve the cached health while `new Date() < healthCacheExpiry`,
else test afresh.  Third component counts network tests performed. -/
def getHealth (now : Nat) (outcome : NetOutcome) (st : MgrState) (name : String) :
    Option ConnectionHealth × MgrState × Nat :=
  match alget st.connections name with
  | none => (none, st, 0)
  | some conn =>
    match conn.healthCache, conn.healthCacheExpiry with
    | some h, some e =>
      if now < e then (some h, st, 0)
      else getHealthFresh now outcome st name conn
    | some _, none => getHealthFresh now outcome st name conn
    | none, _ => getHealthFresh now outcome st name conn

/-- The gather loop of `listConnections`: run `getHealth` for each name in the
key snapshot, collecting non-null results.  The concurrent `allSettled` gather
is modelled as a sequential fold (each task touches only its own entry). -/
def listGo (now : Nat) (outcomes : String → NetOutcome) :
    List String → List (String × ConnectionHealth) × MgrState →
    List (String × ConnectionHealth) × MgrState
  | [], acc => acc
  | name :: rest, acc =>
    let r := getHealth now (outcomes name) acc.2 name
    match r.1 with
    | some h => listGo now outcomes rest (acc.1 ++ [(name, h)], r.2.1)
    | none => listGo now outcomes rest (acc.1, r.2.1)

/-- `listConnections()`: iterate over a snapshot of the pool's keys. -/
def listConnections (now : Nat) (outcomes : String → NetOutcome) (st : MgrState) :
    List (String × ConnectionHealth) × MgrState :=
  listGo now outcomes (alkeys st.connections) ([], st)

end SmartConnectionManager

/-! ## Profile store state

The backing file is either absent (`stat`/`readFile` throw `ENOENT`), present
with parsed content and a modification time, or in a faulted mode where every
access throws a non-`ENOENT` I/O error (disk/permission failure).  The store
instance state is the file system plus `this.cachedProfiles` and
`this.lastModified`.
-/

inductive FileState where
  | absent
  | present (storage : ProfileStorage) (mtime : Nat)
  | ioError (msg : String)
deriving DecidableEq

structure FsState where
  file : FileState
  dirExists : Bool
deriving DecidableEq

abbrev PMap := List (String × ConnectionProfile)

structure StoreState where
  fs : FsState
  cache : PMap
  lastModified : Nat
deriving DecidableEq

namespace SecureProfileStore

/-- `validateProfile(profile)`: the four checks in source order.  The `typeof`
checks are vacuous under typed embedding; `!profile.name` / `!profile.uri` are
the empty-string falsiness checks. -/
def validateProfile (p : ConnectionProfile) : Except String Unit :=
  if p.name = "" then
    .error "Profile name is required and must be a string"
  else if !(p.name.toList.all fun ch => ch.isAlphanum || ch = '_' || ch = '-') then
    .error "Profile name can only contain letters, numbers, underscores, and hyphens"
  else if p.uri = "" then
    .error "Profile URI is required and must be a string"
  else if !(strStartsWith p.uri "mongodb://" || strStartsWith p.uri "mongodb+srv://") then
    .error "Profile URI must start with mongodb:// or mongodb+srv://"
  else
    .ok ()

/-- `encryptProfile(profile)`: encrypt the uri under a fresh iv, keep the other
fields, defaulting missing metadata to `{ createdAt: new Date() }`. -/
def encryptProfile (c : Cipher) (iv : String) (now : Nat)
    (p : ConnectionProfile) : StoredProfile :=
  { name := p.name,
    encryptedUri := c.enc p.uri iv,
    database := p.database,
    profileAlias := p.profileAlias,
    tags := p.tags,
    options := p.options,
    metadata := p.metadata.getD { defaultMeta with createdAt := some now },
    iv := iv }

/-- `decryptProfile(stored)`: `none` models the decipher call throwing. -/
def decryptProfile (c : Cipher) (sp : StoredProfile) : Option ConnectionProfile :=
  (c.dec sp.encryptedUri sp.iv).map fun u =>
    { name := sp.name,
      uri := u,
      database := sp.database,
      profileAlias := sp.profileAlias,
      tags := sp.tags,
      options := sp.options,
      metadata := some sp.metadata }

/-- The decrypt loop of `loadProfiles`: failures are skipped, others load. -/
def decryptFold (c : Cipher) (acc : PMap) : List StoredProfile → PMap
  | [] => acc
  | sp :: rest =>
    match decryptProfile c sp with
    | some p => decryptFold c (alset acc p.name p) rest
    | none => decryptFold c acc rest

/-- The per-profile encryption loop of `saveProfiles`; `ivGen i` is the
`randomBytes(16)` drawn at iteration `i`. -/
def encProfiles (c : Cipher) (ivGen : Nat → String) (now : Nat) :
    Nat → PMap → List StoredProfile
  | _, [] => []
  | i, e :: rest => encryptProfile c (ivGen i) now e.2 :: encProfiles c ivGen now (i + 1) rest

/-- `loadStorage()`: `mkdir` the config directory, then read and parse the
file; `ENOENT` yields the fresh empty container, other I/O errors rethrow. -/
def loadStorage (st : StoreState) (now : Nat) :
    Except String ProfileStorage × StoreState :=
  let st1 : StoreState := { st with fs := { st.fs with dirExists := true } }
  match st.fs.file with
  | .present s _ => (.ok s, st1)
  | .absent =>
    (.ok { profiles := [], defaultProfile := none, version := "2.0.0",
           createdAt := toString now }, st1)
  | .ioError e => (.error e, st1)

/-- `loadProfiles()`: `stat` the file (ENOENT means empty map, untouched
cache; other errors rethrow); serve the cache when the modification time is
unchanged and the cache is non-empty; otherwise `loadStorage`, decrypt each
entry (skipping failures), and install the new cache and mtime.  The `Bool`
reports whether the file was re-read and re-decrypted. -/
def loadProfiles (c : Cipher) (st : StoreState) :
    Except String (PMap × Bool) × StoreState :=
  match st.fs.file with
  | .ioError e => (.error e, st)
  | .absent => (.ok ([], false), st)
  | .present s mt =>
    if mt = st.lastModified ∧ st.cache ≠ [] then
      (.ok (st.cache, false), st)
    else
      let profiles := decryptFold c [] s.profiles
      (.ok (profiles, true),
       { fs := { st.fs with dirExists := true }, cache := profiles, lastModified := mt })

/-- `saveProfiles(profiles)`: reload the current container, re-encrypt the full
in-memory set, atomically replace the file (temp write + rename), then install
the cache and record the new modification time (`Date.now()`; the write and
the clock read happen at the same instant `now` in this model). -/
def saveProfiles (c : Cipher) (ivGen : Nat → String) (now : Nat)
    (st : StoreState) (profiles : PMap) : Except String Unit × StoreState :=
  match loadStorage st now with
  | (.error e, st1) => (.error e, st1)
  | (.ok storage, st1) =>
    let newStorage : ProfileStorage :=
      { storage with profiles := encProfiles c ivGen now 0 profiles }
    (.ok (),
     { fs := { st1.fs with file := .present newStorage now },
       cache := profiles, lastModified := now })

def dupMsg (name : String) : String :=
  "Profile '" ++ name ++ "' already exists. Use update() instead."

/-- The metadata stamping in `add`: spread the (possibly missing) metadata and
overwrite `createdAt`. -/
def stampCreated (now : Nat) (p : ConnectionProfile) : ConnectionProfile :=
  { p with metadata := some { p.metadata.getD defaultMeta with createdAt := some now } }

/-- `add(profile)`: validate, reject duplicates, stamp `createdAt`, persist. -/
def add (c : Cipher) (ivGen : Nat → String) (now : Nat)
    (st : StoreState) (p : ConnectionProfile) : Except String Unit × StoreState :=
  match validateProfile p with
  | .error e => (.error e, st)
  | .ok _ =>
    match loadProfiles c st with
    | (.error e, st1) => (.error e, st1)
    | (.ok (profiles, _), st1) =>
      if alhas profiles p.name then (.error (dupMsg p.name), st1)
      else saveProfiles c ivGen now st1 (alset profiles p.name (stampCreated now p))

/-- `get(name)`. -/
def get (c : Cipher) (st : StoreState) (name : String) :
    Except String (Option ConnectionProfile) × StoreState :=
  match loadProfiles c st with
  | (.error e, st1) => (.error e, st1)
  | (.ok (profiles, _), st1) => (.ok (alget profiles name), st1)

/-- `list()`. -/
def list (c : Cipher) (st : StoreState) :
    Except String (List ConnectionProfile) × StoreState :=
  match loadProfiles c st with
  | (.error e, st1) => (.error e, st1)
  | (.ok (profiles, _), st1) => (.ok (profiles.map Prod.snd), st1)

/-- `remove(name)`: delete, persist only when something was removed. -/
def remove (c : Cipher) (ivGen : Nat → String) (now : Nat)
    (st : StoreState) (name : String) : Except String Bool × StoreState :=
  match loadProfiles c st with
  | (.error e, st1) => (.error e, st1)
  | (.ok (profiles, _), st1) =>
    if alhas profiles name then
      match saveProfiles c ivGen now st1 (aldel profiles name) with
      | (.error e, st2) => (.error e, st2)
      | (.ok _, st2) => (.ok true, st2)
    else (.ok false, st1)

/-- Partial update payload (`Partial<ConnectionProfile>` minus `name`, which
`update` forces back): `none` means the key is absent from the object. -/
structure ProfileUpdate where
  uri : Option String
  database : Option String
  profileAlias : Option String
  tags : Option (List String)
  options : Option String
  metadata : Option ProfileMetadata
deriving DecidableEq

/-- `{...existing.metadata, ...updates.metadata}`: key-wise merge where a
present key of the update wins; a missing object spreads as `{}`. -/
def mergeMeta (a b : Option ProfileMetadata) : ProfileMetadata :=
  let x := a.getD defaultMeta
  let y := b.getD defaultMeta
  { createdAt := y.createdAt <|> x.createdAt,
    lastUsed := y.lastUsed <|> x.lastUsed,
    lastTested := y.lastTested <|> x.lastTested,
    environment := y.environment <|> x.environment,
    description := y.description <|> x.description,
    isDefault := y.isDefault <|> x.isDefault }

/-- The merged profile built by `update`: spread of `existing` then `updates`,
`name` forced, metadata merged key-wise. -/
def applyUpdate (existing : ConnectionProfile) (upd : ProfileUpdate)
    (name : String) : ConnectionProfile :=
  { name := name,
    uri := upd.uri.getD existing.uri,
    database := upd.database <|> existing.database,
    profileAlias := upd.profileAlias <|> existing.profileAlias,
    tags := upd.tags <|> existing.tags,
    options := upd.options <|> existing.options,
    metadata := some (mergeMeta existing.metadata upd.metadata) }

/-- `update(name, updates)`: not-found returns `false`; otherwise merge,
re-validate (throwing on failure), persist. -/
def update (c : Cipher) (ivGen : Nat → String) (now : Nat)
    (st : StoreState) (name : String) (upd : ProfileUpdate) :
    Except String Bool × StoreState :=
  match loadProfiles c st with
  | (.error e, st1) => (.error e, st1)
  | (.ok (profiles, _), st1) =>
    match alget profiles name with
    | none => (.ok false, st1)
    | some existing =>
      let updated := applyUpdate existing upd name
      match validateProfile updated with
      | .error e => (.error e, st1)
      | .ok _ =>
        match saveProfiles c ivGen now st1 (alset profiles name updated) with
        | (.error e, st2) => (.error e, st2)
        | (.ok _, st2) => (.ok true, st2)

/-- Truthiness of `prof.metadata?.isDefault`. -/
def isDefaultTruthy (p : ConnectionProfile) : Bool :=
  match p.metadata with
  | some m => m.isDefault = some true
  | none => false

/-- One pass of the clear-existing-default loop body. -/
def clearDefault (p : ConnectionProfile) : ConnectionProfile :=
  { p with metadata := some { p.metadata.getD defaultMeta with isDefault := some false } }

/-- The clear-existing-default loop of `setDefault` (iterate the map in order,
re-setting every entry whose `metadata?.isDefault` is truthy). -/
def clearDefaults (m : PMap) : PMap :=
  m.map fun e => if isDefaultTruthy e.2 then (e.1, clearDefault e.2) else e

/-- The new default written by `setDefault`, built from the entry as fetched
before the clearing loop. -/
def setIsDefaultTrue (p : ConnectionProfile) : ConnectionProfile :=
  { p with metadata := some { p.metadata.getD defaultMeta with isDefault := some true } }

/-- `setDefault(name)`: not-found returns `false`; otherwise clear every other
default, set the target, and persist once. -/
def setDefault (c : Cipher) (ivGen : Nat → String) (now : Nat)
    (st : StoreState) (name : String) : Except String Bool × StoreState :=
  match loadProfiles c st with
  | (.error e, st1) => (.error e, st1)
  | (.ok (profiles, _), st1) =>
    match alget profiles name with
    | none => (.ok false, st1)
    | some profile =>
      let cleared := clearDefaults profiles
      match saveProfiles c ivGen now st1 (alset cleared name (setIsDefaultTrue profile)) with
      | (.error e, st2) => (.error e, st2)
      | (.ok _, st2) => (.ok true, st2)

/-- `getDefault()`: first profile in iteration order whose
`metadata?.isDefault` is truthy. -/
def getDefault (c : Cipher) (st : StoreState) :
    Except String (Option ConnectionProfile) × StoreState :=
  match loadProfiles c st with
  | (.error e, st1) => (.error e, st1)
  | (.ok (profiles, _), st1) =>
    (.ok ((profiles.find? fun e => isDefaultTruthy e.2).map Prod.snd), st1)

/-- `export()`: serialize the still-encrypted container (modelled as returning
the parsed container itself; JSON round-tripping is external). -/
def exportStore (st : StoreState) (now : Nat) :
    Except String ProfileStorage × StoreState :=
  loadStorage st now

/-- The per-entry loop of `import(data)`: decrypt, `add`, count successes,
skip failures. -/
def importGo (c : Cipher) (ivGen : Nat → String) (now : Nat) :
    List StoredProfile → Nat × StoreState → Nat × StoreState
  | [], acc => acc
  | sp :: rest, acc =>
    match decryptProfile c sp with
    | none => importGo c ivGen now rest acc
    | some p =>
      match add c ivGen now acc.2 p with
      | (.ok _, st1) => importGo c ivGen now rest (acc.1 + 1, st1)
      | (.error _, st1) => importGo c ivGen now rest (acc.1, st1)

/-- `import(data)` on successfully parsed data. -/
def importStore (c : Cipher) (ivGen : Nat → String) (now : Nat)
    (st : StoreState) (data : ProfileStorage) : Nat × StoreState :=
  importGo c ivGen now data.profiles (0, st)

/-- The four persisted CRUD mutations, for frame/caching statements quantified
over every mutation. -/
inductive Mutation where
  | addP (p : ConnectionProfile)
  | removeP (name : String)
  | updateP (name : String) (upd : ProfileUpdate)
  | setDefaultP (name : String)

/-- Run a mutation; the `Bool` is `true` exactly when the mutation persisted
something (for `add`, success always persists). -/
def runMutation (c : Cipher) (ivGen : Nat → String) (now : Nat)
    (st : StoreState) : Mutation → Except String Bool × StoreState
  | .addP p =>
    match add c ivGen now st p with
    | (.ok _, st1) => (.ok true, st1)
    | (.error e, st1) => (.error e, st1)
  | .removeP name => remove c ivGen now st name
  | .updateP name upd => update c ivGen now st name upd
  | .setDefaultP name => setDefault c ivGen now st name

/-- Number of profiles in a map whose `metadata?.isDefault` is truthy. -/
def dcount (m : PMap) : Nat :=
  (m.filter fun e => isDefaultTruthy e.2).length

/-- The store invariant claimed by the spec: at most one default profile. -/
def AtMostOneDefault (m : PMap) : Prop :=
  dcount m ≤ 1

/-- Number of truthy-default profiles in a plain list (for `list()` output). -/
def countTruthy (l : List ConnectionProfile) : Nat :=
  (l.filter fun p => isDefaultTruthy p).length

/-- Well-formedness of a profile map as JS `Map` state: unique keys, and each
value's `name` equals its key (every write path keys by `profile.name`). -/
def WFmap (m : PMap) : Prop :=
  (alkeys m).Nodup ∧ ∀ e ∈ m, e.2.name = e.1

/-- State whose cache and any successfully loaded map carry at most one
default. -/
def GoodD (c : Cipher) (st : StoreState) : Prop :=
  AtMostOneDefault st.cache ∧
  ∀ m b st1, loadProfiles c st = (.ok (m, b), st1) → AtMostOneDefault m

/-- A mutation that does not itself try to mark a profile as default: `add`
of a non-default profile, `update` whose metadata patch does not set
`isDefault` to `true`, and any `remove` / `setDefault`. -/
def MutBenign : Mutation → Prop
  | .addP p => isDefaultTruthy p = false
  | .removeP _ => True
  | .updateP _ upd => (upd.metadata.getD defaultMeta).isDefault ≠ some true
  | .setDefaultP _ => True

end SecureProfileStore

/-! ## Concrete objects used by witnesses and counterexamples -/

/-- A trivially correct cipher instance (the identity), standing in for the
AES library in concrete computations. -/
def idCipher : Cipher :=
  { enc := fun u _ => u, dec := fun s _ => some s }

/-- A fixed iv source. -/
def ivZero : Nat → String := fun _ => "00000000000000000000000000000000"

/-- A store state with an absent backing file and nothing cached. -/
def emptyStore : StoreState :=
  { fs := { file := .absent, dirExists := false }, cache := [], lastModified := 0 }

def pLocal : ConnectionProfile :=
  { name := "local", uri := "mongodb://localhost:27017", database := some "test",
    profileAlias := none, tags := none, options := none, metadata := none }

def pDefA : ConnectionProfile :=
  { name := "a", uri := "mongodb://a:27017", database := none,
    profileAlias := none, tags := none, options := none,
    metadata := some { defaultMeta with isDefault := some true } }

def pDefB : ConnectionProfile :=
  { name := "b", uri := "mongodb://b:27017", database := none,
    profileAlias := none, tags := none, options := none,
    metadata := some { defaultMeta with isDefault := some true } }

def pPlainB : ConnectionProfile :=
  { name := "b", uri := "mongodb://b:27017", database := none,
    profileAlias := none, tags := none, options := none, metadata := none }

/-- A store state whose backing file is in a faulted I/O mode. -/
def errStore : StoreState :=
  { fs := { file := .ioError "EACCES: permission denied", dirExists := true },
    cache := [], lastModified := 0 }

/-- The store state after adding `pLocal` to a fresh empty store at time 1. -/
def stAdd1 : StoreState :=
  (SecureProfileStore.add idCipher ivZero 1 emptyStore pLocal).2

/-- The store state after adding `pLocal` then `pPlainB`. -/
def stTwo : StoreState :=
  (SecureProfileStore.add idCipher ivZero 2 stAdd1 pPlainB).2

/-- The store state after adding the two default-flagged profiles `pDefA` and
`pDefB`. -/
def stDefAB : StoreState :=
  (SecureProfileStore.add idCipher ivZero 2
    (SecureProfileStore.add idCipher ivZero 1 emptyStore pDefA).2 pDefB).2

/-! ## Lemmas about the JS-`Map` association lists -/

theorem alget_alset_self {α : Type} (m : List (String × α)) (k : String) (v : α) :
    alget (alset m k v) k = some v := by
  induction m with
  | nil => simp [alset, alget]
  | cons e rest ih =>
    by_cases h : e.1 = k
    · simp [alset, h, alget]
    · simp [alset, h, alget, ih]

theorem alget_alset_ne {α : Type} (m : List (String × α)) (k k' : String) (v : α)
    (h : k ≠ k') : alget (alset m k v) k' = alget m k' := by
  induction m with
  | nil => simp [alset, alget, h]
  | cons e rest ih =>
    by_cases he : e.1 = k
    · subst he
      simp [alset, alget, h]
    · by_cases he' : e.1 = k'
      · simp only [alset, if_neg he, alget, if_pos he']
      · simp only [alset, if_neg he, alget, if_neg he', ih]

theorem alset_alset {α : Type} (m : List (String × α)) (k : String) (v w : α) :
    alset (alset m k v) k w = alset m k w := by
  induction m with
  | nil => simp [alset]
  | cons e rest ih =>
    by_cases h : e.1 = k
    · simp [alset, h]
    · simp [alset, h, ih]

theorem alset_of_alget_none {α : Type} (m : List (String × α)) (k : String) (v : α)
    (h : alget m k = none) : alset m k v = m ++ [(k, v)] := by
  induction m with
  | nil => simp [alset]
  | cons e rest ih =>
    by_cases he : e.1 = k
    · simp [alget, he] at h
    · simp [alget, he] at h
      simp [alset, he, ih h]

theorem aldel_alset_of_none {α : Type} (m : List (String × α)) (k : String) (v : α)
    (h : alget m k = none) : aldel (alset m k v) k = m := by
  induction m with
  | nil => simp [alset, aldel]
  | cons e rest ih =>
    by_cases he : e.1 = k
    · simp [alget, he] at h
    · simp [alget, he] at h
      simp [alset, he, aldel, ih h]

theorem alget_eq_none_of_not_mem {α : Type} (m : List (String × α)) (k : String)
    (h : k ∉ alkeys m) : alget m k = none := by
  induction m with
  | nil => rfl
  | cons e rest ih =>
    simp only [alkeys, List.map_cons, List.mem_cons, not_or] at h
    have hne : ¬ e.1 = k := fun hh => h.1 hh.symm
    have h2 : k ∉ alkeys rest := h.2
    simp [alget, hne, ih h2]

/-! ## Connection manager: claims C6 and C10 -/

/-- **C6.** `test(profile)` always returns a `ConnectionHealth` object (the
embedding's return type is `ConnectionHealth`, not `Except`: the source wraps
the entire body in try/catch): for every network outcome a result exists, and
on a failure carrying message `msg ≠ ""` the result has `isConnected = false`,
a non-empty `error` string (the thrown message), and the measured latency
`endTime - startTime`. -/
theorem C6_test_reports_failure_as_data (p : ConnectionProfile)
    (startTime endTime : Nat) (msg : String) (hmsg : msg ≠ "") :
    (∀ outcome, ∃ h : ConnectionHealth,
        SmartConnectionManager.test startTime p outcome = h) ∧
    (SmartConnectionManager.test startTime p (.failure msg endTime)).isConnected = false ∧
    (SmartConnectionManager.test startTime p (.failure msg endTime)).error = some msg ∧
    (SmartConnectionManager.test startTime p (.failure msg endTime)).error ≠ some "" ∧
    (SmartConnectionManager.test startTime p (.failure msg endTime)).latency
      = endTime - startTime := by
  refine ⟨fun o => ⟨_, rfl⟩, rfl, rfl, ?_, rfl⟩
  simpa [SmartConnectionManager.test] using hmsg

theorem C6_witness :
    ("server selection timed out" ≠ "") ∧
    (SmartConnectionManager.test 5 pLocal (.failure "server selection timed out" 12)).isConnected
      = false ∧
    (SmartConnectionManager.test 5 pLocal (.failure "server selection timed out" 12)).error
      = some "server selection timed out" ∧
    (SmartConnectionManager.test 5 pLocal (.failure "server selection timed out" 12)).latency
      = 7 := by
  have h := C6_test_reports_failure_as_data pLocal 5 12 "server selection timed out" (by decide)
  exact ⟨by decide, h.2.1, h.2.2.1, h.2.2.2.2⟩

theorem listGo_mem (now : Nat) (outcomes : String → NetOutcome)
    (names : List String) :
    ∀ (acc : List (String × ConnectionHealth) × MgrState) x,
      x ∈ (SmartConnectionManager.listGo now outcomes names acc).1 →
      x ∈ acc.1 ∨ x.1 ∈ names := by
  induction names with
  | nil => intro acc x hx; exact Or.inl (by simpa [SmartConnectionManager.listGo] using hx)
  | cons name rest ih =>
    intro acc x hx
    rw [SmartConnectionManager.listGo] at hx
    rcases hr : (SmartConnectionManager.getHealth now (outcomes name) acc.2 name).1 with _ | h
    · rw [hr] at hx
      rcases ih _ x hx with h1 | h1
      · exact Or.inl h1
      · exact Or.inr (List.mem_cons_of_mem _ h1)
    · rw [hr] at hx
      rcases ih _ x hx with h1 | h1
      · rcases List.mem_append.1 h1 with h2 | h2
        · exact Or.inl h2
        · simp at h2
          exact Or.inr (by simp [h2])
      · exact Or.inr (List.mem_cons_of_mem _ h1)

/-- **C10.** `getHealth(name)` returns `null` immediately — state untouched and
zero network operations — whenever no pooled connection exists for `name`; and
every entry reported by `listConnections` is keyed by a name that was in the
pool. -/
theorem C10_health_only_for_pooled (now : Nat) (outcome : NetOutcome)
    (st : MgrState) (name : String) :
    (alget st.connections name = none →
      SmartConnectionManager.getHealth now outcome st name = (none, st, 0)) ∧
    (∀ (outcomes : String → NetOutcome) x,
      x ∈ (SmartConnectionManager.listConnections now outcomes st).1 →
      x.1 ∈ alkeys st.connections) := by
  constructor
  · intro h
    simp [SmartConnectionManager.getHealth, h]
  · intro outcomes x hx
    rcases listGo_mem now outcomes (alkeys st.connections) ([], st) x hx with h1 | h1
    · simp at h1
    · exact h1

/-! ## Connection manager: claim C3 (circuit breaker) -/

theorem isCBO_none (now : Nat) (m : List (String × CircuitBreakerState)) (name : String)
    (h : alget m name = none) :
    SmartConnectionManager.isCircuitBreakerOpen now m name = (false, m) := by
  simp [SmartConnectionManager.isCircuitBreakerOpen, h]

theorem isCBO_closed (now : Nat) (m : List (String × CircuitBreakerState)) (name : String)
    (b : CircuitBreakerState) (h : alget m name = some b) (hs : b.state = .closed) :
    SmartConnectionManager.isCircuitBreakerOpen now m name = (false, m) := by
  simp [SmartConnectionManager.isCircuitBreakerOpen, h, hs]

theorem isCBO_blocked (now : Nat) (m : List (String × CircuitBreakerState)) (name : String)
    (b : CircuitBreakerState) (na : Nat) (h : alget m name = some b)
    (hs : b.state = .opened) (hna : b.nextAttempt = some na) (hlt : ¬ na < now) :
    SmartConnectionManager.isCircuitBreakerOpen now m name = (true, m) := by
  simp [SmartConnectionManager.isCircuitBreakerOpen, h, hs, hna, hlt]

theorem isCBO_pass (now : Nat) (m : List (String × CircuitBreakerState)) (name : String)
    (b : CircuitBreakerState) (na : Nat) (h : alget m name = some b)
    (hs : b.state = .opened) (hna : b.nextAttempt = some na) (hlt : na < now) :
    SmartConnectionManager.isCircuitBreakerOpen now m name
      = (false, alset m name { b with state := .halfOpen }) := by
  simp [SmartConnectionManager.isCircuitBreakerOpen, h, hs, hna, hlt]

theorem recordFailure_of_none (now : Nat) (m : List (String × CircuitBreakerState))
    (name : String) (h : alget m name = none) :
    SmartConnectionManager.recordFailure now m name
      = alset m name ⟨1, some now, .closed, none⟩ := by
  simp [SmartConnectionManager.recordFailure, h, SmartConnectionManager.maxFailures]

theorem recordFailure_of_some (now : Nat) (m : List (String × CircuitBreakerState))
    (name : String) (b : CircuitBreakerState) (h : alget m name = some b) :
    SmartConnectionManager.recordFailure now m name
      = alset m name
          (if SmartConnectionManager.maxFailures ≤ b.failures + 1 then
            ⟨b.failures + 1, some now, .opened,
              some (now + SmartConnectionManager.circuitBreakerTimeout)⟩
          else ⟨b.failures + 1, some now, b.state, b.nextAttempt⟩) := by
  by_cases hc : SmartConnectionManager.maxFailures ≤ b.failures + 1 <;>
    simp [SmartConnectionManager.recordFailure, h, hc]

theorem connect_fail_no_pool (now : Nat) (e : String) (st : MgrState)
    (p : ConnectionProfile) (brs : List (String × CircuitBreakerState))
    (hconn : alget st.connections p.name = none)
    (hopen : SmartConnectionManager.isCircuitBreakerOpen now st.circuitBreakers p.name
      = (false, brs)) :
    SmartConnectionManager.connect now false false e st p
      = (.error e,
         MgrState.mk st.connections (SmartConnectionManager.recordFailure now brs p.name),
         1) := by
  simp [SmartConnectionManager.connect, hconn, SmartConnectionManager.connectAttempt, hopen]

theorem connect_blocked (now : Nat) (pingOk createOk : Bool) (e : String) (st : MgrState)
    (p : ConnectionProfile) (hconn : alget st.connections p.name = none)
    (hopen : SmartConnectionManager.isCircuitBreakerOpen now st.circuitBreakers p.name
      = (true, st.circuitBreakers)) :
    SmartConnectionManager.connect now pingOk createOk e st p
      = (.error (SmartConnectionManager.disabledMsg p.name), st, 0) := by
  simp [SmartConnectionManager.connect, hconn, SmartConnectionManager.connectAttempt, hopen]

theorem connect_create_no_pool (now : Nat) (e : String) (st : MgrState)
    (p : ConnectionProfile) (brs : List (String × CircuitBreakerState))
    (hconn : alget st.connections p.name = none)
    (hopen : SmartConnectionManager.isCircuitBreakerOpen now st.circuitBreakers p.name
      = (false, brs)) :
    SmartConnectionManager.connect now false true e st p
      = (.ok (),
         MgrState.mk
           (alset st.connections p.name (PooledConnection.mk p now none none))
           (aldel brs p.name),
         1) := by
  simp [SmartConnectionManager.connect, hconn, SmartConnectionManager.connectAttempt, hopen,
    SmartConnectionManager.resetCircuitBreaker]

/-- **C3 counterexample.** The pooled-connection reuse check runs before the
circuit-breaker check, so with a pooled connection for the name whose liveness
probe succeeds, `connect` succeeds — performing a network round trip — even
while the breaker is open and `nextAttempt` is still in the future.  This
falsifies "while open, every connect for that name fails immediately with the
temporarily-disabled error without any network attempt". -/
theorem C3_counterexample :
    alget (⟨[("local", ⟨pLocal, 0, none, none⟩)],
            [("local", ⟨3, some 100, .opened, some 60100⟩)]⟩ : MgrState).circuitBreakers
        "local" = some ⟨3, some 100, .opened, some 60100⟩ ∧
    (200 : Nat) < 60100 ∧
    (SmartConnectionManager.connect 200 true true "err"
      ⟨[("local", ⟨pLocal, 0, none, none⟩)],
       [("local", ⟨3, some 100, .opened, some 60100⟩)]⟩ pLocal).1 = .ok () ∧
    (SmartConnectionManager.connect 200 true true "err"
      ⟨[("local", ⟨pLocal, 0, none, none⟩)],
       [("local", ⟨3, some 100, .opened, some 60100⟩)]⟩ pLocal).2.2 = 1 := by
  exact ⟨rfl, by decide, rfl, rfl⟩

/-- **C3 (amended).** For a profile name with no pooled connection, the
claimed breaker lifecycle holds: three consecutive failed `connect` attempts
put the breaker in the `open` state with `nextAttempt` sixty seconds after the
third failure; while `open` and not strictly past `nextAttempt`, every
`connect` fails immediately with the temporarily-disabled error, with zero
network operations and unchanged state; once `nextAttempt` has strictly
passed, the state moves to half-open and exactly one real attempt goes
through — if it succeeds the breaker record is removed (a fresh closed state),
if it fails the breaker reopens for another cooldown period, blocking
subsequent attempts again. -/
theorem C3_amended_breaker_lifecycle (st : MgrState) (p : ConnectionProfile)
    (t1 t2 t3 : Nat) (e1 e2 e3 : String)
    (hconn : alget st.connections p.name = none)
    (hbr : alget st.circuitBreakers p.name = none) :
    ∃ s3 : MgrState,
      (SmartConnectionManager.connect t3 false false e3
        (SmartConnectionManager.connect t2 false false e2
          (SmartConnectionManager.connect t1 false false e1 st p).2.1 p).2.1 p)
        = (.error e3, s3, 1) ∧
      s3.connections = st.connections ∧
      alget s3.circuitBreakers p.name
        = some ⟨3, some t3, .opened, some (t3 + SmartConnectionManager.circuitBreakerTimeout)⟩ ∧
      (∀ t4 pingOk createOk e4, ¬ t3 + SmartConnectionManager.circuitBreakerTimeout < t4 →
        SmartConnectionManager.connect t4 pingOk createOk e4 s3 p
          = (.error (SmartConnectionManager.disabledMsg p.name), s3, 0)) ∧
      (∀ t5 e5, t3 + SmartConnectionManager.circuitBreakerTimeout < t5 →
        (SmartConnectionManager.connect t5 false true e5 s3 p).1 = .ok () ∧
        (SmartConnectionManager.connect t5 false true e5 s3 p).2.2 = 1 ∧
        alget (SmartConnectionManager.connect t5 false true e5 s3 p).2.1.circuitBreakers
          p.name = none) ∧
      (∀ t5 e5, t3 + SmartConnectionManager.circuitBreakerTimeout < t5 →
        (SmartConnectionManager.connect t5 false false e5 s3 p).2.2 = 1 ∧
        alget (SmartConnectionManager.connect t5 false false e5 s3 p).2.1.circuitBreakers
          p.name
          = some ⟨4, some t5, .opened, some (t5 + SmartConnectionManager.circuitBreakerTimeout)⟩ ∧
        (∀ t6 pingOk createOk e6, ¬ t5 + SmartConnectionManager.circuitBreakerTimeout < t6 →
          SmartConnectionManager.connect t6 pingOk createOk e6
            (SmartConnectionManager.connect t5 false false e5 s3 p).2.1 p
            = (.error (SmartConnectionManager.disabledMsg p.name),
               (SmartConnectionManager.connect t5 false false e5 s3 p).2.1, 0))) := by
  set m := st.circuitBreakers with hm
  -- first failure
  have h1 : SmartConnectionManager.connect t1 false false e1 st p
      = (.error e1,
         MgrState.mk st.connections
           (alset m p.name (CircuitBreakerState.mk 1 (some t1) .closed none)), 1) := by
    rw [connect_fail_no_pool t1 e1 st p m hconn (isCBO_none t1 m p.name hbr),
      recordFailure_of_none t1 m p.name hbr]
  set s1 : MgrState := MgrState.mk st.connections
    (alset m p.name (CircuitBreakerState.mk 1 (some t1) .closed none)) with hs1
  have hg1 : alget s1.circuitBreakers p.name
      = some (CircuitBreakerState.mk 1 (some t1) .closed none) :=
    alget_alset_self m p.name _
  -- second failure
  have hck2 : SmartConnectionManager.isCircuitBreakerOpen t2 s1.circuitBreakers p.name
      = (false, s1.circuitBreakers) := isCBO_closed t2 _ p.name _ hg1 rfl
  have h2 : SmartConnectionManager.connect t2 false false e2 s1 p
      = (.error e2,
         MgrState.mk st.connections
           (alset m p.name (CircuitBreakerState.mk 2 (some t2) .closed none)), 1) := by
    rw [connect_fail_no_pool t2 e2 s1 p s1.circuitBreakers hconn hck2,
      recordFailure_of_some t2 s1.circuitBreakers p.name _ hg1]
    simp [hs1, alset_alset, SmartConnectionManager.maxFailures]
  set s2 : MgrState := MgrState.mk st.connections
    (alset m p.name (CircuitBreakerState.mk 2 (some t2) .closed none)) with hs2
  have hg2 : alget s2.circuitBreakers p.name
      = some (CircuitBreakerState.mk 2 (some t2) .closed none) :=
    alget_alset_self m p.name _
  -- third failure opens the breaker
  have hck3 : SmartConnectionManager.isCircuitBreakerOpen t3 s2.circuitBreakers p.name
      = (false, s2.circuitBreakers) := isCBO_closed t3 _ p.name _ hg2 rfl
  have h3 : SmartConnectionManager.connect t3 false false e3 s2 p
      = (.error e3,
         MgrState.mk st.connections
           (alset m p.name (CircuitBreakerState.mk 3 (some t3) .opened
             (some (t3 + SmartConnectionManager.circuitBreakerTimeout)))), 1) := by
    rw [connect_fail_no_pool t3 e3 s2 p s2.circuitBreakers hconn hck3,
      recordFailure_of_some t3 s2.circuitBreakers p.name _ hg2]
    simp [hs2, alset_alset, SmartConnectionManager.maxFailures]
  set s3 : MgrState := MgrState.mk st.connections
    (alset m p.name (CircuitBreakerState.mk 3 (some t3) .opened
      (some (t3 + SmartConnectionManager.circuitBreakerTimeout)))) with hs3
  have hg3 : alget s3.circuitBreakers p.name
      = some (CircuitBreakerState.mk 3 (some t3) .opened
          (some (t3 + SmartConnectionManager.circuitBreakerTimeout))) :=
    alget_alset_self m p.name _
  refine ⟨s3, ?_, rfl, hg3, ?_, ?_, ?_⟩
  · have e21 : (SmartConnectionManager.connect t1 false false e1 st p).2.1 = s1 := by rw [h1]
    have e22 : (SmartConnectionManager.connect t2 false false e2 s1 p).2.1 = s2 := by rw [h2]
    rw [e21, e22, h3]
  · -- blocked while open and not past nextAttempt
    intro t4 pingOk createOk e4 ht4
    exact connect_blocked t4 pingOk createOk e4 s3 p hconn
      (isCBO_blocked t4 _ p.name _ _ hg3 rfl rfl ht4)
  · -- half-open success clears the record
    intro t5 e5 ht5
    have hck5 : SmartConnectionManager.isCircuitBreakerOpen t5 s3.circuitBreakers p.name
        = (false, alset m p.name (CircuitBreakerState.mk 3 (some t3) .halfOpen
            (some (t3 + SmartConnectionManager.circuitBreakerTimeout)))) := by
      rw [isCBO_pass t5 _ p.name _ _ hg3 rfl rfl ht5]
      simp [hs3, alset_alset]
    have h5 := connect_create_no_pool t5 e5 s3 p _ hconn hck5
    rw [h5]
    refine ⟨rfl, rfl, ?_⟩
    show alget (aldel (alset m p.name (CircuitBreakerState.mk 3 (some t3) .halfOpen
      (some (t3 + SmartConnectionManager.circuitBreakerTimeout)))) p.name) p.name = none
    rw [aldel_alset_of_none m p.name _ hbr]
    exact hbr
  · -- half-open failure reopens the breaker
    intro t5 e5 ht5
    have hck5 : SmartConnectionManager.isCircuitBreakerOpen t5 s3.circuitBreakers p.name
        = (false, alset m p.name (CircuitBreakerState.mk 3 (some t3) .halfOpen
            (some (t3 + SmartConnectionManager.circuitBreakerTimeout)))) := by
      rw [isCBO_pass t5 _ p.name _ _ hg3 rfl rfl ht5]
      simp [hs3, alset_alset]
    have h5 : SmartConnectionManager.connect t5 false false e5 s3 p
        = (.error e5,
           MgrState.mk st.connections
             (alset m p.name (CircuitBreakerState.mk 4 (some t5) .opened
               (some (t5 + SmartConnectionManager.circuitBreakerTimeout)))), 1) := by
      rw [connect_fail_no_pool t5 e5 s3 p _ hconn hck5,
        recordFailure_of_some t5 _ p.name _ (alget_alset_self m p.name _)]
      simp [hs3, alset_alset, SmartConnectionManager.maxFailures]
    have hg4 : alget (alset m p.name (CircuitBreakerState.mk 4 (some t5) .opened
        (some (t5 + SmartConnectionManager.circuitBreakerTimeout)))) p.name
        = some (CircuitBreakerState.mk 4 (some t5) .opened
            (some (t5 + SmartConnectionManager.circuitBreakerTimeout))) :=
      alget_alset_self m p.name _
    rw [h5]
    refine ⟨rfl, hg4, ?_⟩
    intro t6 pingOk createOk e6 ht6
    exact connect_blocked t6 pingOk createOk e6 _ p hconn
      (isCBO_blocked t6 _ p.name _ _ hg4 rfl rfl ht6)

theorem C3_witness :
    alget ((⟨[], []⟩ : MgrState)).connections "local" = none ∧
    ∃ s3 : MgrState,
      (SmartConnectionManager.connect 3 false false "c"
        (SmartConnectionManager.connect 2 false false "b"
          (SmartConnectionManager.connect 1 false false "a" ⟨[], []⟩ pLocal).2.1 pLocal).2.1
        pLocal)
        = (.error "c", s3, 1) ∧
      s3.connections = [] ∧
      alget s3.circuitBreakers "local"
        = some ⟨3, some 3, .opened, some (3 + SmartConnectionManager.circuitBreakerTimeout)⟩ ∧
      SmartConnectionManager.connect 100 true true "d" s3 pLocal
        = (.error (SmartConnectionManager.disabledMsg "local"), s3, 0) ∧
      (SmartConnectionManager.connect 70000 false true "e" s3 pLocal).1 = .ok () ∧
      alget (SmartConnectionManager.connect 70000 false true "e" s3 pLocal).2.1.circuitBreakers
        "local" = none := by
  refine ⟨rfl, ?_⟩
  obtain ⟨s3, hchain, hconns, hopen, hblock, hsucc, _⟩ :=
    C3_amended_breaker_lifecycle ⟨[], []⟩ pLocal 1 2 3 "a" "b" "c" rfl rfl
  refine ⟨s3, hchain, hconns, hopen, hblock 100 true true "d" (by decide), ?_, ?_⟩
  · exact (hsucc 70000 "e" (by decide)).1
  · exact (hsucc 70000 "e" (by decide)).2.2

theorem C10_witness :
    SmartConnectionManager.getHealth 3 (.failure "x" 4) ⟨[], []⟩ "a" = (none, ⟨[], []⟩, 0) ∧
    "local" ∈ alkeys [("local", (⟨pLocal, 0, none, none⟩ : PooledConnection))] := by
  refine ⟨(C10_health_only_for_pooled 3 (.failure "x" 4) ⟨[], []⟩ "a").1 rfl, ?_⟩
  exact (C10_health_only_for_pooled 5 (.failure "boom" 9)
    ⟨[("local", ⟨pLocal, 0, none, none⟩)], []⟩ "local").2 (fun _ => .failure "boom" 9)
    ("local", SmartConnectionManager.test 5 pLocal (.failure "boom" 9)) (by decide)

/-! ## Profile store: basic lemmas about load and save -/

theorem loadProfiles_absent (c : Cipher) (st : StoreState) (h : st.fs.file = .absent) :
    SecureProfileStore.loadProfiles c st = (.ok ([], false), st) := by
  simp [SecureProfileStore.loadProfiles, h]

theorem loadProfiles_ioError (c : Cipher) (st : StoreState) (e : String)
    (h : st.fs.file = .ioError e) :
    SecureProfileStore.loadProfiles c st = (.error e, st) := by
  simp [SecureProfileStore.loadProfiles, h]

theorem loadProfiles_cacheHit (c : Cipher) (st : StoreState) (s : ProfileStorage) (mt : Nat)
    (h : st.fs.file = .present s mt) (hmt : mt = st.lastModified) (hc : st.cache ≠ []) :
    SecureProfileStore.loadProfiles c st = (.ok (st.cache, false), st) := by
  simp [SecureProfileStore.loadProfiles, h, hmt, hc]

theorem loadProfiles_reload (c : Cipher) (st : StoreState) (s : ProfileStorage) (mt : Nat)
    (h : st.fs.file = .present s mt) (hmiss : ¬ (mt = st.lastModified ∧ st.cache ≠ [])) :
    SecureProfileStore.loadProfiles c st
      = (.ok (SecureProfileStore.decryptFold c [] s.profiles, true),
         StoreState.mk (FsState.mk st.fs.file true)
           (SecureProfileStore.decryptFold c [] s.profiles) mt) := by
  rw [SecureProfileStore.loadProfiles]
  split
  · simp_all
  · simp_all
  · rename_i s2 mt2 heq
    rw [h] at heq
    injection heq with h1 h2
    subst h1; subst h2
    rw [if_neg hmiss]

theorem loadProfiles_file_eq (c : Cipher) (st : StoreState) (r : Except String (PMap × Bool))
    (st1 : StoreState) (h : SecureProfileStore.loadProfiles c st = (r, st1)) :
    st1.fs.file = st.fs.file := by
  rw [SecureProfileStore.loadProfiles] at h
  split at h
  · injection h with h1 h2; subst h2; rfl
  · injection h with h1 h2; subst h2; rfl
  · split at h
    · injection h with h1 h2; subst h2; rfl
    · injection h with h1 h2; subst h2; rfl

theorem loadProfiles_error_state (c : Cipher) (st : StoreState) (e : String)
    (st1 : StoreState) (h : SecureProfileStore.loadProfiles c st = (.error e, st1)) :
    st1 = st := by
  rw [SecureProfileStore.loadProfiles] at h
  split at h
  · injection h with h1 h2; exact h2.symm
  · injection h with h1 h2; cases h1
  · split at h
    · injection h with h1 h2; cases h1
    · injection h with h1 h2; cases h1

theorem loadProfiles_cache_or (c : Cipher) (st : StoreState) (m : PMap) (b : Bool)
    (st1 : StoreState) (h : SecureProfileStore.loadProfiles c st = (.ok (m, b), st1)) :
    st1.cache = m ∨ st1.cache = st.cache := by
  rw [SecureProfileStore.loadProfiles] at h
  split at h
  · injection h with h1 h2; cases h1
  · injection h with h1 h2; subst h2; exact Or.inr rfl
  · split at h
    · injection h with h1 h2
      injection h1 with h3
      injection h3 with h4 h5
      subst h2; exact Or.inr rfl
    · injection h with h1 h2
      injection h1 with h3
      injection h3 with h4 h5
      subst h2; subst h4; exact Or.inl rfl

theorem loadProfiles_not_ioError (c : Cipher) (st : StoreState) (m : PMap) (b : Bool)
    (st1 : StoreState) (h : SecureProfileStore.loadProfiles c st = (.ok (m, b), st1)) :
    ∀ e, st.fs.file ≠ .ioError e := by
  intro e he
  rw [loadProfiles_ioError c st e he] at h
  injection h with h1 h2
  cases h1

theorem loadProfiles_stable (c : Cipher) (st : StoreState) (m : PMap) (b : Bool)
    (st1 : StoreState) (h : SecureProfileStore.loadProfiles c st = (.ok (m, b), st1)) :
    ∃ b2, SecureProfileStore.loadProfiles c st1 = (.ok (m, b2), st1) := by
  rw [SecureProfileStore.loadProfiles] at h
  split at h
  · injection h with h1 h2; cases h1
  · injection h with h1 h2
    injection h1 with h3
    injection h3 with h4 h5
    subst h2; subst h4
    rename_i habs
    exact ⟨false, loadProfiles_absent c st habs⟩
  · rename_i s mt habs
    split at h
    · injection h with h1 h2
      injection h1 with h3
      injection h3 with h4 h5
      subst h2; subst h4
      rename_i hcond
      exact ⟨false, loadProfiles_cacheHit c st s mt habs hcond.1 hcond.2⟩
    · injection h with h1 h2
      injection h1 with h3
      injection h3 with h4 h5
      subst h2; subst h4
      by_cases hnil : SecureProfileStore.decryptFold c [] s.profiles = []
      · refine ⟨true, ?_⟩
        have := loadProfiles_reload c
          (StoreState.mk (FsState.mk st.fs.file true)
            (SecureProfileStore.decryptFold c [] s.profiles) mt) s mt habs
          (by simp [hnil])
        simpa [habs] using this
      · refine ⟨false, ?_⟩
        exact loadProfiles_cacheHit c
          (StoreState.mk (FsState.mk st.fs.file true)
            (SecureProfileStore.decryptFold c [] s.profiles) mt) s mt habs rfl hnil

theorem saveProfiles_ok_present (c : Cipher) (ivGen : Nat → String) (now : Nat)
    (st : StoreState) (profs : PMap) (s : ProfileStorage) (mt : Nat)
    (h : st.fs.file = .present s mt) :
    SecureProfileStore.saveProfiles c ivGen now st profs
      = (.ok (),
         StoreState.mk
           (FsState.mk
             (.present
               (ProfileStorage.mk (SecureProfileStore.encProfiles c ivGen now 0 profs)
                 s.defaultProfile s.version s.createdAt)
               now)
             true)
           profs now) := by
  simp [SecureProfileStore.saveProfiles, SecureProfileStore.loadStorage, h]

theorem saveProfiles_ok_absent (c : Cipher) (ivGen : Nat → String) (now : Nat)
    (st : StoreState) (profs : PMap) (h : st.fs.file = .absent) :
    SecureProfileStore.saveProfiles c ivGen now st profs
      = (.ok (),
         StoreState.mk
           (FsState.mk
             (.present
               (ProfileStorage.mk (SecureProfileStore.encProfiles c ivGen now 0 profs)
                 none "2.0.0" (toString now))
               now)
             true)
           profs now) := by
  simp [SecureProfileStore.saveProfiles, SecureProfileStore.loadStorage, h]

theorem saveProfiles_ok_shape (c : Cipher) (ivGen : Nat → String) (now : Nat)
    (st : StoreState) (profs : PMap) (hio : ∀ e, st.fs.file ≠ .ioError e) :
    ∃ stor : ProfileStorage,
      stor.profiles = SecureProfileStore.encProfiles c ivGen now 0 profs ∧
      SecureProfileStore.saveProfiles c ivGen now st profs
        = (.ok (), StoreState.mk (FsState.mk (.present stor now) true) profs now) := by
  cases hf : st.fs.file with
  | absent => exact ⟨_, rfl, saveProfiles_ok_absent c ivGen now st profs hf⟩
  | present s mt => exact ⟨_, rfl, saveProfiles_ok_present c ivGen now st profs s mt hf⟩
  | ioError e => exact absurd hf (hio e)

theorem loadProfiles_after_save (c : Cipher) (stor : ProfileStorage) (profs : PMap)
    (now : Nat) (hne : profs ≠ []) :
    SecureProfileStore.loadProfiles c
      (StoreState.mk (FsState.mk (.present stor now) true) profs now)
      = (.ok (profs, false), StoreState.mk (FsState.mk (.present stor now) true) profs now) :=
  loadProfiles_cacheHit c _ stor now rfl rfl hne

/-! ## Profile store: claim C8 (missing file, I/O errors) -/

/-- **C8 counterexample.** With the backing file absent, `get` and `list`
succeed with an empty result, but the read path does not create the
configuration directory: `loadProfiles` hits the `stat` `ENOENT` catch and
returns before `loadStorage` (the only place that calls `mkdir`) runs.  So
"the first access creates the configuration directory" is false for reads. -/
theorem C8_counterexample :
    SecureProfileStore.get idCipher emptyStore "x" = (.ok none, emptyStore) ∧
    SecureProfileStore.list idCipher emptyStore = (.ok [], emptyStore) ∧
    (SecureProfileStore.get idCipher emptyStore "x").2.fs.dirExists = false ∧
    (SecureProfileStore.list idCipher emptyStore).2.fs.dirExists = false :=
  ⟨rfl, rfl, rfl, rfl⟩

/-- **C8 (amended).** A missing backing file is not an error: `list` and `get`
succeed and return an empty result, leaving the state (including the missing
configuration directory) untouched; the directory is created by the operations
that call `loadStorage` (`export` and every persisting mutation), not by the
read path; and I/O errors other than file-absent propagate unchanged. -/
theorem C8_missing_file_not_error (c : Cipher) (st : StoreState) (name : String) (now : Nat) :
    (st.fs.file = .absent →
      SecureProfileStore.get c st name = (.ok none, st) ∧
      SecureProfileStore.list c st = (.ok [], st) ∧
      (SecureProfileStore.exportStore st now).2.fs.dirExists = true) ∧
    (∀ e, st.fs.file = .ioError e →
      SecureProfileStore.get c st name = (.error e, st) ∧
      SecureProfileStore.list c st = (.error e, st)) := by
  constructor
  · intro h
    refine ⟨?_, ?_, ?_⟩
    · simp [SecureProfileStore.get, loadProfiles_absent c st h, alget]
    · simp [SecureProfileStore.list, loadProfiles_absent c st h]
    · simp [SecureProfileStore.exportStore, SecureProfileStore.loadStorage, h]
  · intro e h
    constructor
    · simp [SecureProfileStore.get, loadProfiles_ioError c st e h]
    · simp [SecureProfileStore.list, loadProfiles_ioError c st e h]

theorem C8_witness :
    (SecureProfileStore.get idCipher emptyStore "y" = (.ok none, emptyStore) ∧
      (SecureProfileStore.exportStore emptyStore 7).2.fs.dirExists = true) ∧
    SecureProfileStore.get idCipher errStore "y"
      = (.error "EACCES: permission denied", errStore) := by
  have h := C8_missing_file_not_error idCipher emptyStore "y" 7
  have h2 := C8_missing_file_not_error idCipher errStore "y" 7
  exact ⟨⟨(h.1 rfl).1, (h.1 rfl).2.2⟩, (h2.2 "EACCES: permission denied" rfl).1⟩

/-! ## Profile store: claim C4 (duplicate add) -/

/-- **C4 counterexample.** `add` validates before checking for duplicates, so
a profile whose name duplicates an existing one but whose uri is invalid fails
with the validation error, not the duplicate-name error — refuting "including
a P that would also fail validation — add(P) fails with a duplicate-name
error". -/
theorem C4_counterexample :
    alhas stAdd1.cache "local" = true ∧
    (SecureProfileStore.add idCipher ivZero 2 stAdd1
      (ConnectionProfile.mk "local" "bad-uri" none none none none none)).1
      = .error "Profile URI must start with mongodb:// or mongodb+srv://" ∧
    "Profile URI must start with mongodb:// or mongodb+srv://"
      ≠ SecureProfileStore.dupMsg "local" := by
  exact ⟨rfl, rfl, by decide⟩

/-- **C4 (amended).** If a profile named `P.name` already exists, `add(P)`
always fails — with the duplicate-name error when `P` passes validation, and
with the validation error when it does not (validation runs first) — and in
either case the persisted file is unchanged and the existing profile is still
returned unmodified by a subsequent `get`. -/
theorem C4_duplicate_add_fails (c : Cipher) (ivGen : Nat → String) (now : Nat)
    (st : StoreState) (p : ConnectionProfile) (m : PMap) (b : Bool) (st1 : StoreState)
    (hload : SecureProfileStore.loadProfiles c st = (.ok (m, b), st1))
    (hdup : alhas m p.name = true) :
    (∃ e, (SecureProfileStore.add c ivGen now st p).1 = .error e) ∧
    (SecureProfileStore.validateProfile p = .ok () →
      SecureProfileStore.add c ivGen now st p = (.error (SecureProfileStore.dupMsg p.name), st1)) ∧
    (SecureProfileStore.add c ivGen now st p).2.fs.file = st.fs.file ∧
    (SecureProfileStore.get c (SecureProfileStore.add c ivGen now st p).2 p.name).1
      = .ok (alget m p.name) := by
  cases hv : SecureProfileStore.validateProfile p with
  | error e =>
    have hadd : SecureProfileStore.add c ivGen now st p = (.error e, st) := by
      simp [SecureProfileStore.add, hv]
    refine ⟨⟨e, by rw [hadd]⟩, ?_, by rw [hadd], ?_⟩
    · intro hok; simp at hok
    · rw [hadd]
      simp [SecureProfileStore.get, hload]
  | ok u =>
    have hadd : SecureProfileStore.add c ivGen now st p
        = (.error (SecureProfileStore.dupMsg p.name), st1) := by
      simp [SecureProfileStore.add, hv, hload, hdup]
    obtain ⟨b2, hstable⟩ := loadProfiles_stable c st m b st1 hload
    refine ⟨⟨_, by rw [hadd]⟩, fun _ => hadd, ?_, ?_⟩
    · rw [hadd]
      exact loadProfiles_file_eq c st _ st1 hload
    · rw [hadd]
      simp [SecureProfileStore.get, hstable]

theorem C4_witness :
    alhas stAdd1.cache "local" = true ∧
    SecureProfileStore.add idCipher ivZero 5 stAdd1
        (ConnectionProfile.mk "local" "mongodb://other:27017" none none none none none)
      = (.error (SecureProfileStore.dupMsg "local"), stAdd1) ∧
    (SecureProfileStore.get idCipher
      (SecureProfileStore.add idCipher ivZero 5 stAdd1
        (ConnectionProfile.mk "local" "mongodb://other:27017" none none none none none)).2
      "local").1 = .ok (alget stAdd1.cache "local") := by
  have h := C4_duplicate_add_fails idCipher ivZero 5 stAdd1
    (ConnectionProfile.mk "local" "mongodb://other:27017" none none none none none)
    stAdd1.cache false stAdd1 rfl rfl
  exact ⟨rfl, h.2.1 rfl, h.2.2.2⟩

/-! ## Profile store: destructuring successful mutations -/

theorem saveProfiles_ioError (c : Cipher) (ivGen : Nat → String) (now : Nat)
    (st : StoreState) (profs : PMap) (e : String) (h : st.fs.file = .ioError e) :
    (SecureProfileStore.saveProfiles c ivGen now st profs).1 = .error e := by
  simp [SecureProfileStore.saveProfiles, SecureProfileStore.loadStorage, h]

theorem add_ok_destruct (c : Cipher) (ivGen : Nat → String) (now : Nat)
    (st : StoreState) (p : ConnectionProfile) (u : Unit) (st2 : StoreState)
    (h : SecureProfileStore.add c ivGen now st p = (.ok u, st2)) :
    ∃ m b st1, SecureProfileStore.validateProfile p = .ok () ∧
      SecureProfileStore.loadProfiles c st = (.ok (m, b), st1) ∧
      alhas m p.name = false ∧
      SecureProfileStore.saveProfiles c ivGen now st1
        (alset m p.name (SecureProfileStore.stampCreated now p)) = (.ok (), st2) := by
  cases hv : SecureProfileStore.validateProfile p with
  | error e => simp [SecureProfileStore.add, hv] at h
  | ok u2 =>
    rcases hl : SecureProfileStore.loadProfiles c st with ⟨r, st1⟩
    cases r with
    | error e => simp [SecureProfileStore.add, hv, hl] at h
    | ok mb =>
      obtain ⟨m, b⟩ := mb
      by_cases hd : alhas m p.name
      · simp [SecureProfileStore.add, hv, hl, hd] at h
      · have hadd : SecureProfileStore.add c ivGen now st p
            = SecureProfileStore.saveProfiles c ivGen now st1
                (alset m p.name (SecureProfileStore.stampCreated now p)) := by
          simp [SecureProfileStore.add, hv, hl, hd]
        rw [hadd] at h
        exact ⟨m, b, st1, rfl, rfl, by simpa using hd, h⟩

theorem remove_true_destruct (c : Cipher) (ivGen : Nat → String) (now : Nat)
    (st : StoreState) (name : String) (st2 : StoreState)
    (h : SecureProfileStore.remove c ivGen now st name = (.ok true, st2)) :
    ∃ m b st1, SecureProfileStore.loadProfiles c st = (.ok (m, b), st1) ∧
      alhas m name = true ∧
      SecureProfileStore.saveProfiles c ivGen now st1 (aldel m name) = (.ok (), st2) := by
  rcases hl : SecureProfileStore.loadProfiles c st with ⟨r, st1⟩
  cases r with
  | error e => simp [SecureProfileStore.remove, hl] at h
  | ok mb =>
    obtain ⟨m, b⟩ := mb
    by_cases hd : alhas m name
    · rcases hs : SecureProfileStore.saveProfiles c ivGen now st1 (aldel m name) with ⟨rs, st3⟩
      cases rs with
      | error e => simp [SecureProfileStore.remove, hl, hd, hs] at h
      | ok u =>
        have : st3 = st2 := by
          simp [SecureProfileStore.remove, hl, hd, hs] at h
          exact h
        subst this
        exact ⟨m, b, st1, rfl, by simpa using hd, hs⟩
    · simp [SecureProfileStore.remove, hl, hd] at h

theorem update_true_destruct (c : Cipher) (ivGen : Nat → String) (now : Nat)
    (st : StoreState) (name : String) (upd : SecureProfileStore.ProfileUpdate)
    (st2 : StoreState)
    (h : SecureProfileStore.update c ivGen now st name upd = (.ok true, st2)) :
    ∃ m b st1 existing, SecureProfileStore.loadProfiles c st = (.ok (m, b), st1) ∧
      alget m name = some existing ∧
      SecureProfileStore.saveProfiles c ivGen now st1
        (alset m name (SecureProfileStore.applyUpdate existing upd name)) = (.ok (), st2) := by
  rcases hl : SecureProfileStore.loadProfiles c st with ⟨r, st1⟩
  cases r with
  | error e => simp [SecureProfileStore.update, hl] at h
  | ok mb =>
    obtain ⟨m, b⟩ := mb
    cases hg : alget m name with
    | none => simp [SecureProfileStore.update, hl, hg] at h
    | some existing =>
      cases hv : SecureProfileStore.validateProfile
          (SecureProfileStore.applyUpdate existing upd name) with
      | error e => simp [SecureProfileStore.update, hl, hg, hv] at h
      | ok u2 =>
        rcases hs : SecureProfileStore.saveProfiles c ivGen now st1
            (alset m name (SecureProfileStore.applyUpdate existing upd name)) with ⟨rs, st3⟩
        cases rs with
        | error e => simp [SecureProfileStore.update, hl, hg, hv, hs] at h
        | ok u =>
          have : st3 = st2 := by
            simp [SecureProfileStore.update, hl, hg, hv, hs] at h
            exact h
          subst this
          exact ⟨m, b, st1, existing, rfl, hg, hs⟩

theorem setDefault_true_destruct (c : Cipher) (ivGen : Nat → String) (now : Nat)
    (st : StoreState) (name : String) (st2 : StoreState)
    (h : SecureProfileStore.setDefault c ivGen now st name = (.ok true, st2)) :
    ∃ m b st1 profile, SecureProfileStore.loadProfiles c st = (.ok (m, b), st1) ∧
      alget m name = some profile ∧
      SecureProfileStore.saveProfiles c ivGen now st1
        (alset (SecureProfileStore.clearDefaults m) name
          (SecureProfileStore.setIsDefaultTrue profile)) = (.ok (), st2) := by
  rcases hl : SecureProfileStore.loadProfiles c st with ⟨r, st1⟩
  cases r with
  | error e => simp [SecureProfileStore.setDefault, hl] at h
  | ok mb =>
    obtain ⟨m, b⟩ := mb
    cases hg : alget m name with
    | none => simp [SecureProfileStore.setDefault, hl, hg] at h
    | some profile =>
      rcases hs : SecureProfileStore.saveProfiles c ivGen now st1
          (alset (SecureProfileStore.clearDefaults m) name
            (SecureProfileStore.setIsDefaultTrue profile)) with ⟨rs, st3⟩
      cases rs with
      | error e => simp [SecureProfileStore.setDefault, hl, hg, hs] at h
      | ok u =>
        have : st3 = st2 := by
          simp [SecureProfileStore.setDefault, hl, hg, hs] at h
          exact h
        subst this
        exact ⟨m, b, st1, profile, rfl, hg, hs⟩

theorem runMutation_ok_save (c : Cipher) (ivGen : Nat → String) (now : Nat)
    (st : StoreState) (mu : SecureProfileStore.Mutation) (st2 : StoreState)
    (h : SecureProfileStore.runMutation c ivGen now st mu = (.ok true, st2)) :
    ∃ st1 profs, st1.fs.file = st.fs.file ∧
      SecureProfileStore.saveProfiles c ivGen now st1 profs = (.ok (), st2) := by
  cases mu with
  | addP p =>
    rcases ha : SecureProfileStore.add c ivGen now st p with ⟨r, s2⟩
    cases r with
    | error e => simp [SecureProfileStore.runMutation, ha] at h
    | ok u =>
      have hs2 : s2 = st2 := by
        simp [SecureProfileStore.runMutation, ha] at h
        exact h
      subst hs2
      obtain ⟨m, b, st1, _, hl, _, hs⟩ := add_ok_destruct c ivGen now st p u s2 ha
      exact ⟨st1, _, loadProfiles_file_eq c st _ st1 hl, hs⟩
  | removeP name =>
    obtain ⟨m, b, st1, hl, _, hs⟩ := remove_true_destruct c ivGen now st name st2 h
    exact ⟨st1, _, loadProfiles_file_eq c st _ st1 hl, hs⟩
  | updateP name upd =>
    obtain ⟨m, b, st1, existing, hl, _, hs⟩ := update_true_destruct c ivGen now st name upd st2 h
    exact ⟨st1, _, loadProfiles_file_eq c st _ st1 hl, hs⟩
  | setDefaultP name =>
    obtain ⟨m, b, st1, profile, hl, _, hs⟩ := setDefault_true_destruct c ivGen now st name st2 h
    exact ⟨st1, _, loadProfiles_file_eq c st _ st1 hl, hs⟩

/-! ## Profile store: claims C7 (write-through cache) and C9 (frame) -/

/-- **C7 counterexample.** Removing the last profile succeeds, but the
immediately following read re-reads and re-decrypts the backing file (the
`loadProfiles` disk flag is `true`), because the cache-valid check requires a
non-empty cache.  This refutes "an immediately following read ... returns the
cached map without re-reading or re-decrypting the file" for every successful
mutation. -/
theorem C7_counterexample :
    (SecureProfileStore.runMutation idCipher ivZero 2 stAdd1 (.removeP "local")).1
      = .ok true ∧
    (SecureProfileStore.loadProfiles idCipher
      (SecureProfileStore.runMutation idCipher ivZero 2 stAdd1 (.removeP "local")).2).1
      = .ok ([], true) :=
  ⟨rfl, rfl⟩

/-- **C7 (amended).** Every successful persisting mutation installs the new
map as the in-memory cache and records the backing file's new modification
time (`lastModified` equals the written file's mtime); consequently, whenever
the resulting profile set is non-empty, an immediately following read serves
the cache without re-reading the file.  When a mutation empties the store the
cache-valid check (`size > 0`) fails and the next read re-reads the file. -/
theorem C7_write_through_cache (c : Cipher) (ivGen : Nat → String) (now : Nat)
    (st : StoreState) (mu : SecureProfileStore.Mutation) (st2 : StoreState)
    (hrun : SecureProfileStore.runMutation c ivGen now st mu = (.ok true, st2)) :
    (∃ stor, st2.fs.file = .present stor st2.lastModified) ∧
    (st2.cache ≠ [] →
      SecureProfileStore.loadProfiles c st2 = (.ok (st2.cache, false), st2)) := by
  obtain ⟨st1, profs, _, hs⟩ := runMutation_ok_save c ivGen now st mu st2 hrun
  have hio : ∀ e, st1.fs.file ≠ .ioError e := by
    intro e he
    have := saveProfiles_ioError c ivGen now st1 profs e he
    rw [hs] at this
    cases this
  obtain ⟨stor, _, heq⟩ := saveProfiles_ok_shape c ivGen now st1 profs hio
  rw [heq] at hs
  injection hs with h1 h2
  subst h2
  refine ⟨⟨stor, rfl⟩, ?_⟩
  intro hne
  exact loadProfiles_after_save c stor profs now hne

theorem C7_witness :
    SecureProfileStore.runMutation idCipher ivZero 1 emptyStore (.addP pLocal)
      = (.ok true, stAdd1) ∧
    (∃ stor, stAdd1.fs.file = .present stor stAdd1.lastModified) ∧
    SecureProfileStore.loadProfiles idCipher stAdd1 = (.ok (stAdd1.cache, false), stAdd1) := by
  have h := C7_write_through_cache idCipher ivZero 1 emptyStore (.addP pLocal) stAdd1 rfl
  exact ⟨rfl, h.1, h.2 (by decide)⟩

/-- **C9.** Every successful persisting mutation rewrites only the `profiles`
array of the stored container: `version`, `createdAt`, and `defaultProfile`
are read from the existing file and written back unchanged. -/
theorem C9_mutation_preserves_container_fields (c : Cipher) (ivGen : Nat → String)
    (now : Nat) (st : StoreState) (mu : SecureProfileStore.Mutation) (st2 : StoreState)
    (s : ProfileStorage) (mt : Nat)
    (hfile : st.fs.file = .present s mt)
    (hrun : SecureProfileStore.runMutation c ivGen now st mu = (.ok true, st2)) :
    ∃ l, st2.fs.file
      = .present (ProfileStorage.mk l s.defaultProfile s.version s.createdAt) now := by
  obtain ⟨st1, profs, hfe, hs⟩ := runMutation_ok_save c ivGen now st mu st2 hrun
  have hfile1 : st1.fs.file = .present s mt := by rw [hfe, hfile]
  rw [saveProfiles_ok_present c ivGen now st1 profs s mt hfile1] at hs
  injection hs with h1 h2
  subst h2
  exact ⟨_, rfl⟩

theorem C9_witness :
    stAdd1.fs.file
      = .present
          (ProfileStorage.mk (SecureProfileStore.encProfiles idCipher ivZero 1 0 stAdd1.cache)
            none "2.0.0" (toString 1))
          1 ∧
    (SecureProfileStore.runMutation idCipher ivZero 3 stAdd1 (.setDefaultP "local")).1
      = .ok true ∧
    (∃ l, (SecureProfileStore.runMutation idCipher ivZero 3 stAdd1 (.setDefaultP "local")).2.fs.file
      = .present (ProfileStorage.mk l none "2.0.0" (toString 1)) 3) := by
  refine ⟨rfl, rfl, ?_⟩
  exact C9_mutation_preserves_container_fields idCipher ivZero 3 stAdd1 (.setDefaultP "local")
    (SecureProfileStore.runMutation idCipher ivZero 3 stAdd1 (.setDefaultP "local")).2
    (ProfileStorage.mk (SecureProfileStore.encProfiles idCipher ivZero 1 0 stAdd1.cache)
      none "2.0.0" (toString 1))
    1 rfl rfl

/-! ## Profile store: claim C5 (setDefault) -/

theorem alget_some_ne_nil {α : Type} (m : List (String × α)) (k : String) (v : α)
    (h : alget m k = some v) : m ≠ [] := by
  intro hnil
  subst hnil
  cases h

theorem alget_clearDefaults (m : PMap) (k : String) :
    alget (SecureProfileStore.clearDefaults m) k
      = (alget m k).map
          (fun p => if SecureProfileStore.isDefaultTruthy p then
            SecureProfileStore.clearDefault p else p) := by
  induction m with
  | nil => rfl
  | cons e rest ih =>
    by_cases hc : SecureProfileStore.isDefaultTruthy e.2 <;>
      by_cases hk : e.1 = k <;>
        simp [SecureProfileStore.clearDefaults, alget, hc, hk] <;>
          simpa [SecureProfileStore.clearDefaults] using ih

theorem isDefaultTruthy_clearDefault (p : ConnectionProfile) :
    SecureProfileStore.isDefaultTruthy (SecureProfileStore.clearDefault p) = false := by
  simp [SecureProfileStore.isDefaultTruthy, SecureProfileStore.clearDefault]

theorem isDefaultTruthy_setIsDefaultTrue (p : ConnectionProfile) :
    SecureProfileStore.isDefaultTruthy (SecureProfileStore.setIsDefaultTrue p) = true := by
  simp [SecureProfileStore.isDefaultTruthy, SecureProfileStore.setIsDefaultTrue]

theorem truthy_clearDefaults_value (m : PMap) (k : String) (q : ConnectionProfile)
    (h : alget (SecureProfileStore.clearDefaults m) k = some q) :
    SecureProfileStore.isDefaultTruthy q = false := by
  rw [alget_clearDefaults] at h
  cases hg : alget m k with
  | none => rw [hg] at h; cases h
  | some p =>
    rw [hg] at h
    injection h with h1
    by_cases hc : SecureProfileStore.isDefaultTruthy p
    · have h2 : q = SecureProfileStore.clearDefault p := by rw [← h1]; simp [hc]
      rw [h2]
      exact isDefaultTruthy_clearDefault p
    · have h2 : q = p := by rw [← h1]; simp [hc]
      rw [h2]
      simpa using hc

theorem setDefault_ok_forward (c : Cipher) (ivGen : Nat → String) (now : Nat)
    (st : StoreState) (name : String) (m : PMap) (b : Bool) (st1 : StoreState)
    (q : ConnectionProfile)
    (hl : SecureProfileStore.loadProfiles c st = (.ok (m, b), st1))
    (hq : alget m name = some q) :
    ∃ stor, SecureProfileStore.setDefault c ivGen now st name
      = (.ok true,
         StoreState.mk (FsState.mk (.present stor now) true)
           (alset (SecureProfileStore.clearDefaults m) name
             (SecureProfileStore.setIsDefaultTrue q)) now) := by
  have hfe := loadProfiles_file_eq c st _ st1 hl
  have hio : ∀ e, st1.fs.file ≠ .ioError e := by
    intro e he
    exact loadProfiles_not_ioError c st m b st1 hl e (by rw [← hfe]; exact he)
  obtain ⟨stor, _, hs⟩ := saveProfiles_ok_shape c ivGen now st1
    (alset (SecureProfileStore.clearDefaults m) name (SecureProfileStore.setIsDefaultTrue q)) hio
  refine ⟨stor, ?_⟩
  simp [SecureProfileStore.setDefault, hl, hq, hs]

/-- **C5.** `setDefault(name)` returns `false` and leaves the persisted file
unchanged when no profile named `name` exists; otherwise it clears
`isDefault` on every other profile and sets it on the target in one persisted
write and returns `true`.  Consequently, after `setDefault(A)` then
`setDefault(B)` with `A ≠ B` and both present, a subsequent `get` shows that
exactly `B` has `isDefault = true`. -/
theorem C5_setDefault_exclusive (c : Cipher) (ivGen : Nat → String) (nowA nowB : Nat)
    (st : StoreState) (A B : String) (m : PMap) (b : Bool) (st1 : StoreState)
    (pa pb : ConnectionProfile)
    (hload : SecureProfileStore.loadProfiles c st = (.ok (m, b), st1))
    (hA : alget m A = some pa) (hB : alget m B = some pb) (hAB : A ≠ B) :
    (∀ name, alget m name = none →
      SecureProfileStore.setDefault c ivGen nowA st name = (.ok false, st1) ∧
      st1.fs.file = st.fs.file) ∧
    (SecureProfileStore.setDefault c ivGen nowA st A).1 = .ok true ∧
    (SecureProfileStore.setDefault c ivGen nowB
        (SecureProfileStore.setDefault c ivGen nowA st A).2 B).1 = .ok true ∧
    (∃ q, (SecureProfileStore.get c
        (SecureProfileStore.setDefault c ivGen nowB
          (SecureProfileStore.setDefault c ivGen nowA st A).2 B).2 B).1 = .ok (some q) ∧
      SecureProfileStore.isDefaultTruthy q = true) ∧
    (∀ k, k ≠ B → ∀ q, (SecureProfileStore.get c
        (SecureProfileStore.setDefault c ivGen nowB
          (SecureProfileStore.setDefault c ivGen nowA st A).2 B).2 k).1 = .ok (some q) →
      SecureProfileStore.isDefaultTruthy q = false) := by
  obtain ⟨stor1, hA1⟩ := setDefault_ok_forward c ivGen nowA st A m b st1 pa hload hA
  set m1 : PMap := alset (SecureProfileStore.clearDefaults m) A
    (SecureProfileStore.setIsDefaultTrue pa) with hm1
  set r1 : StoreState := StoreState.mk (FsState.mk (.present stor1 nowA) true) m1 nowA with hr1
  have hm1A : alget m1 A = some (SecureProfileStore.setIsDefaultTrue pa) :=
    alget_alset_self _ A _
  have hl2 : SecureProfileStore.loadProfiles c r1 = (.ok (m1, false), r1) :=
    loadProfiles_cacheHit c r1 stor1 nowA rfl rfl (alget_some_ne_nil m1 A _ hm1A)
  have hm1B : alget m1 B = some (if SecureProfileStore.isDefaultTruthy pb then
      SecureProfileStore.clearDefault pb else pb) := by
    rw [hm1, alget_alset_ne _ A B _ hAB, alget_clearDefaults, hB]
    rfl
  obtain ⟨stor2, hB1⟩ := setDefault_ok_forward c ivGen nowB r1 B m1 false r1 _ hl2 hm1B
  set pb1 : ConnectionProfile := (if SecureProfileStore.isDefaultTruthy pb then
    SecureProfileStore.clearDefault pb else pb) with hpb1
  set m2 : PMap := alset (SecureProfileStore.clearDefaults m1) B
    (SecureProfileStore.setIsDefaultTrue pb1) with hm2
  set r2 : StoreState := StoreState.mk (FsState.mk (.present stor2 nowB) true) m2 nowB with hr2
  have hm2B : alget m2 B = some (SecureProfileStore.setIsDefaultTrue pb1) :=
    alget_alset_self _ B _
  have hl3 : SecureProfileStore.loadProfiles c r2 = (.ok (m2, false), r2) :=
    loadProfiles_cacheHit c r2 stor2 nowB rfl rfl (alget_some_ne_nil m2 B _ hm2B)
  have hget : ∀ k, SecureProfileStore.get c r2 k = (.ok (alget m2 k), r2) := by
    intro k
    simp [SecureProfileStore.get, hl3]
  refine ⟨?_, ?_, ?_, ?_, ?_⟩
  · intro name hname
    constructor
    · simp [SecureProfileStore.setDefault, hload, hname]
    · exact loadProfiles_file_eq c st _ st1 hload
  · rw [hA1]
  · rw [hA1]
    show (SecureProfileStore.setDefault c ivGen nowB r1 B).1 = .ok true
    rw [hB1]
  · rw [hA1]
    show (∃ q, (SecureProfileStore.get c
        (SecureProfileStore.setDefault c ivGen nowB r1 B).2 B).1 = .ok (some q) ∧
      SecureProfileStore.isDefaultTruthy q = true)
    rw [hB1]
    refine ⟨SecureProfileStore.setIsDefaultTrue pb1, ?_, isDefaultTruthy_setIsDefaultTrue pb1⟩
    show (SecureProfileStore.get c r2 B).1 = .ok (some (SecureProfileStore.setIsDefaultTrue pb1))
    rw [hget B, hm2B]
  · rw [hA1]
    show ∀ k, k ≠ B → ∀ q, (SecureProfileStore.get c
        (SecureProfileStore.setDefault c ivGen nowB r1 B).2 k).1 = .ok (some q) →
      SecureProfileStore.isDefaultTruthy q = false
    rw [hB1]
    intro k hk q hq
    have hq2 : alget m2 k = some q := by
      have := hget k
      rw [this] at hq
      injection hq with h1
    have hq3 : alget (SecureProfileStore.clearDefaults m1) k = some q := by
      rw [hm2, alget_alset_ne _ B k _ (fun he => hk he.symm)] at hq2
      exact hq2
    exact truthy_clearDefaults_value m1 k q hq3

theorem C5_witness :
    SecureProfileStore.setDefault idCipher ivZero 9 stTwo "zzz" = (.ok false, stTwo) ∧
    (SecureProfileStore.setDefault idCipher ivZero 3 stTwo "local").1 = .ok true ∧
    (SecureProfileStore.setDefault idCipher ivZero 4
      (SecureProfileStore.setDefault idCipher ivZero 3 stTwo "local").2 "b").1 = .ok true ∧
    (∃ q, (SecureProfileStore.get idCipher
        (SecureProfileStore.setDefault idCipher ivZero 4
          (SecureProfileStore.setDefault idCipher ivZero 3 stTwo "local").2 "b").2 "b").1
        = .ok (some q) ∧
      SecureProfileStore.isDefaultTruthy q = true) ∧
    SecureProfileStore.isDefaultTruthy
      (match (SecureProfileStore.get idCipher
        (SecureProfileStore.setDefault idCipher ivZero 4
          (SecureProfileStore.setDefault idCipher ivZero 3 stTwo "local").2 "b").2 "local").1
       with
       | .ok (some q) => q
       | _ => pLocal) = false := by
  have h := C5_setDefault_exclusive idCipher ivZero 3 4 stTwo "local" "b"
    stTwo.cache false stTwo (SecureProfileStore.stampCreated 1 pLocal)
    (SecureProfileStore.stampCreated 2 pPlainB) rfl rfl rfl (by decide)
  refine ⟨(h.1 "zzz" rfl).1, h.2.1, h.2.2.1, h.2.2.2.1, ?_⟩
  exact h.2.2.2.2 "local" (by decide) _ rfl

/-! ## Profile store: claim C2 (at most one default) -/

/-- **C2 counterexample.** `add` neither checks nor clears `isDefault`, so
adding a second profile that arrives with `isDefault = true` produces a store
in which two profiles are default at once — from a state reachable purely via
`add` on a fresh store. -/
theorem C2_counterexample :
    (SecureProfileStore.add idCipher ivZero 1 emptyStore pDefA).1 = .ok () ∧
    (SecureProfileStore.add idCipher ivZero 2
      (SecureProfileStore.add idCipher ivZero 1 emptyStore pDefA).2 pDefB).1 = .ok () ∧
    SecureProfileStore.countTruthy
      (match (SecureProfileStore.list idCipher stDefAB).1 with
       | .ok l => l
       | .error _ => []) = 2 :=
  ⟨rfl, rfl, rfl⟩

theorem dcount_cons (e : String × ConnectionProfile) (rest : PMap) :
    SecureProfileStore.dcount (e :: rest)
      = (if SecureProfileStore.isDefaultTruthy e.2 then 1 else 0)
        + SecureProfileStore.dcount rest := by
  by_cases hc : SecureProfileStore.isDefaultTruthy e.2 <;>
    simp [SecureProfileStore.dcount, hc, Nat.add_comm]

theorem dcount_aldel_le (m : PMap) (k : String) :
    SecureProfileStore.dcount (aldel m k) ≤ SecureProfileStore.dcount m := by
  induction m with
  | nil => exact Nat.le_refl _
  | cons e rest ih =>
    by_cases he : e.1 = k
    · rw [show aldel (e :: rest) k = rest from by simp [aldel, he], dcount_cons]
      exact Nat.le_add_left _ _
    · rw [show aldel (e :: rest) k = e :: aldel rest k from by simp [aldel, he],
        dcount_cons, dcount_cons]
      exact Nat.add_le_add_left ih _

theorem dcount_alset_replace_le (m : PMap) (k : String) (old new : ConnectionProfile)
    (hold : alget m k = some old)
    (himp : SecureProfileStore.isDefaultTruthy new = true →
      SecureProfileStore.isDefaultTruthy old = true) :
    SecureProfileStore.dcount (alset m k new) ≤ SecureProfileStore.dcount m := by
  induction m with
  | nil => cases hold
  | cons e rest ih =>
    by_cases he : e.1 = k
    · have hoe : old = e.2 := by
        rw [alget, if_pos he] at hold
        injection hold with h1
        exact h1.symm
      rw [show alset (e :: rest) k new = (k, new) :: rest from by simp [alset, he],
        dcount_cons, dcount_cons]
      refine Nat.add_le_add_right ?_ _
      by_cases hn : SecureProfileStore.isDefaultTruthy new
      · rw [if_pos hn, ← hoe, if_pos (himp hn)]
      · rw [if_neg hn]
        exact Nat.zero_le _
    · have hold2 : alget rest k = some old := by
        rw [alget, if_neg he] at hold
        exact hold
      rw [show alset (e :: rest) k new = e :: alset rest k new from by simp [alset, he],
        dcount_cons, dcount_cons]
      exact Nat.add_le_add_left (ih hold2) _

theorem dcount_alset_append (m : PMap) (k : String) (v : ConnectionProfile)
    (hnone : alget m k = none) (hv : SecureProfileStore.isDefaultTruthy v = false) :
    SecureProfileStore.dcount (alset m k v) = SecureProfileStore.dcount m := by
  rw [alset_of_alget_none m k v hnone]
  simp [SecureProfileStore.dcount, List.filter_append, hv]

theorem dcount_eq_zero (l : PMap)
    (hall : ∀ e ∈ l, SecureProfileStore.isDefaultTruthy e.2 = false) :
    SecureProfileStore.dcount l = 0 := by
  induction l with
  | nil => rfl
  | cons e rest ih =>
    rw [dcount_cons, hall e (List.mem_cons_self e rest)]
    simpa using ih fun x hx => hall x (List.mem_cons_of_mem e hx)

theorem dcount_alset_le_one (l : PMap) (k : String) (w : ConnectionProfile)
    (hall : ∀ e ∈ l, SecureProfileStore.isDefaultTruthy e.2 = false) :
    SecureProfileStore.dcount (alset l k w) ≤ 1 := by
  induction l with
  | nil =>
    rw [show alset ([] : PMap) k w = [(k, w)] from rfl, dcount_cons]
    by_cases hw : SecureProfileStore.isDefaultTruthy w <;> simp [hw, SecureProfileStore.dcount]
  | cons e rest ih =>
    by_cases he : e.1 = k
    · rw [show alset (e :: rest) k w = (k, w) :: rest from by simp [alset, he], dcount_cons,
        dcount_eq_zero rest fun x hx => hall x (List.mem_cons_of_mem e hx)]
      by_cases hw : SecureProfileStore.isDefaultTruthy w <;> simp [hw]
    · rw [show alset (e :: rest) k w = e :: alset rest k w from by simp [alset, he], dcount_cons,
        hall e (List.mem_cons_self e rest)]
      simpa using ih fun x hx => hall x (List.mem_cons_of_mem e hx)

theorem mem_clearDefaults_not_truthy (m : PMap) :
    ∀ e ∈ SecureProfileStore.clearDefaults m,
      SecureProfileStore.isDefaultTruthy e.2 = false := by
  intro e he
  rcases List.mem_map.1 he with ⟨a, _, hfa⟩
  by_cases hc : SecureProfileStore.isDefaultTruthy a.2
  · rw [if_pos hc] at hfa
    rw [← hfa]
    exact isDefaultTruthy_clearDefault a.2
  · rw [if_neg hc] at hfa
    rw [← hfa]
    simpa using hc

theorem truthy_stampCreated (now : Nat) (p : ConnectionProfile) :
    SecureProfileStore.isDefaultTruthy (SecureProfileStore.stampCreated now p)
      = SecureProfileStore.isDefaultTruthy p := by
  cases hm : p.metadata <;>
    simp [SecureProfileStore.stampCreated, SecureProfileStore.isDefaultTruthy, hm, defaultMeta]

theorem truthy_applyUpdate (existing : ConnectionProfile)
    (upd : SecureProfileStore.ProfileUpdate) (name : String)
    (hb : (upd.metadata.getD defaultMeta).isDefault ≠ some true)
    (ht : SecureProfileStore.isDefaultTruthy
      (SecureProfileStore.applyUpdate existing upd name) = true) :
    SecureProfileStore.isDefaultTruthy existing = true := by
  have ht3 : ((upd.metadata.getD defaultMeta).isDefault
      <|> (existing.metadata.getD defaultMeta).isDefault) = some true := by
    have h0 := ht
    simp [SecureProfileStore.applyUpdate, SecureProfileStore.isDefaultTruthy,
      SecureProfileStore.mergeMeta] at h0
    exact h0
  cases hy : (upd.metadata.getD defaultMeta).isDefault with
  | some v =>
    rw [hy] at ht3
    have hv : v = true := by simpa using ht3
    exact absurd (hy.trans (by rw [hv])) hb
  | none =>
    rw [hy] at ht3
    have ht4 : (existing.metadata.getD defaultMeta).isDefault = some true := by
      simpa using ht3
    cases hm : existing.metadata with
    | some mm =>
      rw [hm] at ht4
      simp only [Option.getD_some] at ht4
      simp [SecureProfileStore.isDefaultTruthy, hm, ht4]
    | none =>
      rw [hm] at ht4
      simp [defaultMeta] at ht4

theorem truthy_decryptProfile (c : Cipher) (sp : StoredProfile) (p : ConnectionProfile)
    (hdec : SecureProfileStore.decryptProfile c sp = some p)
    (hb : sp.metadata.isDefault ≠ some true) :
    SecureProfileStore.isDefaultTruthy p = false := by
  cases hdd : c.dec sp.encryptedUri sp.iv with
  | none => rw [SecureProfileStore.decryptProfile, hdd] at hdec; cases hdec
  | some u =>
    rw [SecureProfileStore.decryptProfile, hdd] at hdec
    injection hdec with h1
    rw [← h1]
    simp [SecureProfileStore.isDefaultTruthy, hb]

theorem alget_none_of_not_alhas {α : Type} (m : List (String × α)) (k : String)
    (h : ¬ alhas m k = true) : alget m k = none := by
  rcases hg : alget m k with _ | v
  · rfl
  · exact absurd (by simp [alhas, hg]) h

theorem GoodD_after_load (c : Cipher) (st : StoreState) (m : PMap) (b : Bool)
    (st1 : StoreState) (hl : SecureProfileStore.loadProfiles c st = (.ok (m, b), st1))
    (hm : SecureProfileStore.AtMostOneDefault m)
    (hc : SecureProfileStore.AtMostOneDefault st.cache) :
    SecureProfileStore.GoodD c st1 := by
  constructor
  · rcases loadProfiles_cache_or c st m b st1 hl with h | h <;> rw [h]
    · exact hm
    · exact hc
  · intro m2 b2 st2 h2
    obtain ⟨b3, hst⟩ := loadProfiles_stable c st m b st1 hl
    rw [hst] at h2
    injection h2 with ha hb
    injection ha with hc2
    injection hc2 with hm2 hb2
    rw [← hm2]
    exact hm

theorem GoodD_after_save (c : Cipher) (stor : ProfileStorage) (profs : PMap) (now : Nat)
    (hp : SecureProfileStore.AtMostOneDefault profs) (hne : profs ≠ []) :
    SecureProfileStore.GoodD c
      (StoreState.mk (FsState.mk (.present stor now) true) profs now) := by
  constructor
  · exact hp
  · intro m2 b2 st2 h2
    rw [loadProfiles_after_save c stor profs now hne] at h2
    injection h2 with ha hb
    injection ha with hc2
    injection hc2 with hm2 hb2
    rw [← hm2]
    exact hp

theorem add_preserves_GoodD (c : Cipher) (ivGen : Nat → String) (now : Nat)
    (st : StoreState) (p : ConnectionProfile)
    (hp : SecureProfileStore.isDefaultTruthy p = false)
    (hg : SecureProfileStore.GoodD c st) :
    SecureProfileStore.GoodD c (SecureProfileStore.add c ivGen now st p).2 := by
  cases hv : SecureProfileStore.validateProfile p with
  | error e =>
    have h2 : (SecureProfileStore.add c ivGen now st p).2 = st := by
      simp [SecureProfileStore.add, hv]
    rw [h2]
    exact hg
  | ok u =>
    rcases hl : SecureProfileStore.loadProfiles c st with ⟨r, st1⟩
    cases r with
    | error e =>
      have h2 : (SecureProfileStore.add c ivGen now st p).2 = st1 := by
        simp [SecureProfileStore.add, hv, hl]
      rw [h2, loadProfiles_error_state c st e st1 hl]
      exact hg
    | ok mb =>
      obtain ⟨m, b⟩ := mb
      have hm : SecureProfileStore.AtMostOneDefault m := hg.2 m b st1 hl
      by_cases hd : alhas m p.name
      · have h2 : (SecureProfileStore.add c ivGen now st p).2 = st1 := by
          simp [SecureProfileStore.add, hv, hl, hd]
        rw [h2]
        exact GoodD_after_load c st m b st1 hl hm hg.1
      · have hio : ∀ e, st1.fs.file ≠ .ioError e := by
          intro e he
          exact loadProfiles_not_ioError c st m b st1 hl e
            (by rw [← loadProfiles_file_eq c st _ st1 hl]; exact he)
        obtain ⟨stor, _, hs⟩ := saveProfiles_ok_shape c ivGen now st1
          (alset m p.name (SecureProfileStore.stampCreated now p)) hio
        have h2 : (SecureProfileStore.add c ivGen now st p).2
            = StoreState.mk (FsState.mk (.present stor now) true)
                (alset m p.name (SecureProfileStore.stampCreated now p)) now := by
          simp [SecureProfileStore.add, hv, hl, hd, hs]
        rw [h2]
        refine GoodD_after_save c stor _ now ?_ ?_
        · have heq := dcount_alset_append m p.name (SecureProfileStore.stampCreated now p)
            (alget_none_of_not_alhas m p.name hd)
            (by rw [truthy_stampCreated]; exact hp)
          unfold SecureProfileStore.AtMostOneDefault
          rw [heq]
          exact hm
        · exact alget_some_ne_nil _ p.name _ (alget_alset_self m p.name _)

theorem importGo_preserves (c : Cipher) (ivGen : Nat → String) (now : Nat)
    (l : List StoredProfile) :
    ∀ acc : Nat × StoreState, SecureProfileStore.GoodD c acc.2 →
      (∀ sp ∈ l, sp.metadata.isDefault ≠ some true) →
      SecureProfileStore.GoodD c (SecureProfileStore.importGo c ivGen now l acc).2 := by
  induction l with
  | nil => intro acc hg _; exact hg
  | cons sp rest ih =>
    intro acc hg hall
    cases hdec : SecureProfileStore.decryptProfile c sp with
    | none =>
      rw [show SecureProfileStore.importGo c ivGen now (sp :: rest) acc
          = SecureProfileStore.importGo c ivGen now rest acc from by
        simp [SecureProfileStore.importGo, hdec]]
      exact ih acc hg fun x hx => hall x (List.mem_cons_of_mem sp hx)
    | some p =>
      have hp : SecureProfileStore.isDefaultTruthy p = false :=
        truthy_decryptProfile c sp p hdec (hall sp (List.mem_cons_self sp rest))
      have hgood2 : SecureProfileStore.GoodD c (SecureProfileStore.add c ivGen now acc.2 p).2 :=
        add_preserves_GoodD c ivGen now acc.2 p hp hg
      rcases ha : SecureProfileStore.add c ivGen now acc.2 p with ⟨ra, stx⟩
      have hstx : SecureProfileStore.GoodD c stx := by
        rw [ha] at hgood2
        exact hgood2
      cases ra with
      | ok u =>
        rw [show SecureProfileStore.importGo c ivGen now (sp :: rest) acc
            = SecureProfileStore.importGo c ivGen now rest (acc.1 + 1, stx) from by
          simp [SecureProfileStore.importGo, hdec, ha]]
        exact ih (acc.1 + 1, stx) hstx fun x hx => hall x (List.mem_cons_of_mem sp hx)
      | error e =>
        rw [show SecureProfileStore.importGo c ivGen now (sp :: rest) acc
            = SecureProfileStore.importGo c ivGen now rest (acc.1, stx) from by
          simp [SecureProfileStore.importGo, hdec, ha]]
        exact ih (acc.1, stx) hstx fun x hx => hall x (List.mem_cons_of_mem sp hx)

/-- **C2 (amended).** At most one profile is default after any mutation that
does not itself introduce a default flag: `remove` and `setDefault` preserve
the at-most-one-default invariant unconditionally, and `add` / `update` (and
`import`, which funnels every entry through `add`) preserve it provided the
supplied profile, metadata patch, or imported entries do not carry
`isDefault = true`.  (`add` neither checks nor clears `isDefault`, so without
that proviso the invariant can be violated — see the counterexample.) -/
theorem C2_at_most_one_default (c : Cipher) (ivGen : Nat → String) (now : Nat)
    (st : StoreState) :
    (∀ (mu : SecureProfileStore.Mutation) (m : PMap) (b : Bool) (st1 : StoreState),
      SecureProfileStore.loadProfiles c st = (.ok (m, b), st1) →
      SecureProfileStore.AtMostOneDefault m →
      SecureProfileStore.AtMostOneDefault st.cache →
      SecureProfileStore.MutBenign mu →
      SecureProfileStore.AtMostOneDefault
        ((SecureProfileStore.runMutation c ivGen now st mu).2).cache) ∧
    (∀ data : ProfileStorage, SecureProfileStore.GoodD c st →
      (∀ sp ∈ data.profiles, sp.metadata.isDefault ≠ some true) →
      SecureProfileStore.AtMostOneDefault
        ((SecureProfileStore.importStore c ivGen now st data).2).cache) := by
  constructor
  · intro mu m b st1 hl hm hc hb
    have hio : ∀ e, st1.fs.file ≠ .ioError e := by
      intro e he
      exact loadProfiles_not_ioError c st m b st1 hl e
        (by rw [← loadProfiles_file_eq c st _ st1 hl]; exact he)
    have hst1 : SecureProfileStore.AtMostOneDefault st1.cache := by
      rcases loadProfiles_cache_or c st m b st1 hl with h | h <;> rw [h]
      · exact hm
      · exact hc
    cases mu with
    | addP p =>
      cases hv : SecureProfileStore.validateProfile p with
      | error e =>
        have h2 : (SecureProfileStore.runMutation c ivGen now st (.addP p)).2 = st := by
          simp [SecureProfileStore.runMutation, SecureProfileStore.add, hv]
        rw [h2]
        exact hc
      | ok u =>
        by_cases hd : alhas m p.name
        · have h2 : (SecureProfileStore.runMutation c ivGen now st (.addP p)).2 = st1 := by
            simp [SecureProfileStore.runMutation, SecureProfileStore.add, hv, hl, hd]
          rw [h2]
          exact hst1
        · obtain ⟨stor, _, hs⟩ := saveProfiles_ok_shape c ivGen now st1
            (alset m p.name (SecureProfileStore.stampCreated now p)) hio
          have h2 : (SecureProfileStore.runMutation c ivGen now st (.addP p)).2
              = StoreState.mk (FsState.mk (.present stor now) true)
                  (alset m p.name (SecureProfileStore.stampCreated now p)) now := by
            simp [SecureProfileStore.runMutation, SecureProfileStore.add, hv, hl, hd, hs]
          rw [h2]
          show SecureProfileStore.AtMostOneDefault
            (alset m p.name (SecureProfileStore.stampCreated now p))
          unfold SecureProfileStore.AtMostOneDefault
          rw [dcount_alset_append m p.name _ (alget_none_of_not_alhas m p.name hd)
            (by rw [truthy_stampCreated]; exact hb)]
          exact hm
    | removeP name =>
      by_cases hd : alhas m name
      · obtain ⟨stor, _, hs⟩ := saveProfiles_ok_shape c ivGen now st1 (aldel m name) hio
        have h2 : (SecureProfileStore.runMutation c ivGen now st (.removeP name)).2
            = StoreState.mk (FsState.mk (.present stor now) true) (aldel m name) now := by
          simp [SecureProfileStore.runMutation, SecureProfileStore.remove, hl, hd, hs]
        rw [h2]
        exact Nat.le_trans (dcount_aldel_le m name) hm
      · have h2 : (SecureProfileStore.runMutation c ivGen now st (.removeP name)).2 = st1 := by
          simp [SecureProfileStore.runMutation, SecureProfileStore.remove, hl, hd]
        rw [h2]
        exact hst1
    | updateP name upd =>
      cases hgn : alget m name with
      | none =>
        have h2 : (SecureProfileStore.runMutation c ivGen now st (.updateP name upd)).2
            = st1 := by
          simp [SecureProfileStore.runMutation, SecureProfileStore.update, hl, hgn]
        rw [h2]
        exact hst1
      | some existing =>
        cases hv : SecureProfileStore.validateProfile
            (SecureProfileStore.applyUpdate existing upd name) with
        | error e =>
          have h2 : (SecureProfileStore.runMutation c ivGen now st (.updateP name upd)).2
              = st1 := by
            simp [SecureProfileStore.runMutation, SecureProfileStore.update, hl, hgn, hv]
          rw [h2]
          exact hst1
        | ok u =>
          obtain ⟨stor, _, hs⟩ := saveProfiles_ok_shape c ivGen now st1
            (alset m name (SecureProfileStore.applyUpdate existing upd name)) hio
          have h2 : (SecureProfileStore.runMutation c ivGen now st (.updateP name upd)).2
              = StoreState.mk (FsState.mk (.present stor now) true)
                  (alset m name (SecureProfileStore.applyUpdate existing upd name)) now := by
            simp [SecureProfileStore.runMutation, SecureProfileStore.update, hl, hgn, hv, hs]
          rw [h2]
          exact Nat.le_trans
            (dcount_alset_replace_le m name existing _ hgn
              (truthy_applyUpdate existing upd name hb))
            hm
    | setDefaultP name =>
      cases hgn : alget m name with
      | none =>
        have h2 : (SecureProfileStore.runMutation c ivGen now st (.setDefaultP name)).2
            = st1 := by
          simp [SecureProfileStore.runMutation, SecureProfileStore.setDefault, hl, hgn]
        rw [h2]
        exact hst1
      | some profile =>
        obtain ⟨stor, _, hs⟩ := saveProfiles_ok_shape c ivGen now st1
          (alset (SecureProfileStore.clearDefaults m) name
            (SecureProfileStore.setIsDefaultTrue profile)) hio
        have h2 : (SecureProfileStore.runMutation c ivGen now st (.setDefaultP name)).2
            = StoreState.mk (FsState.mk (.present stor now) true)
                (alset (SecureProfileStore.clearDefaults m) name
                  (SecureProfileStore.setIsDefaultTrue profile)) now := by
          simp [SecureProfileStore.runMutation, SecureProfileStore.setDefault, hl, hgn, hs]
        rw [h2]
        exact dcount_alset_le_one (SecureProfileStore.clearDefaults m) name _
          (mem_clearDefaults_not_truthy m)
  · intro data hg hall
    exact (importGo_preserves c ivGen now data.profiles (0, st) hg hall).1

theorem C2_witness :
    SecureProfileStore.AtMostOneDefault
      ((SecureProfileStore.runMutation idCipher ivZero 7 stTwo (.setDefaultP "local")).2).cache ∧
    SecureProfileStore.AtMostOneDefault
      ((SecureProfileStore.importStore idCipher ivZero 8 stTwo
        (ProfileStorage.mk
          [StoredProfile.mk "c" "mongodb://c:27017" none none none none defaultMeta "00"]
          none "2.0.0" "t")).2).cache := by
  have hcache : SecureProfileStore.AtMostOneDefault stTwo.cache := by
    unfold SecureProfileStore.AtMostOneDefault
    decide
  have hgood : SecureProfileStore.GoodD idCipher stTwo := by
    constructor
    · exact hcache
    · intro m b st1 h
      have h2 : SecureProfileStore.loadProfiles idCipher stTwo
          = (.ok (stTwo.cache, false), stTwo) := rfl
      rw [h2] at h
      injection h with ha hb
      injection ha with hc
      injection hc with hm hbb
      rw [← hm]
      exact hcache
  have h := C2_at_most_one_default idCipher ivZero 7 stTwo
  have h8 := C2_at_most_one_default idCipher ivZero 8 stTwo
  constructor
  · exact h.1 (.setDefaultP "local") stTwo.cache false stTwo rfl hcache hcache trivial
  · refine h8.2 _ hgood ?_
    intro sp hsp
    have : sp = StoredProfile.mk "c" "mongodb://c:27017" none none none none defaultMeta "00" := by
      simpa using hsp
    rw [this]
    simp [defaultMeta]

/-! ## Profile store: claim C1 (encrypt/persist/decrypt round trip) -/

theorem name_decryptProfile (c : Cipher) (sp : StoredProfile) (p : ConnectionProfile)
    (h : SecureProfileStore.decryptProfile c sp = some p) : p.name = sp.name := by
  cases hdd : c.dec sp.encryptedUri sp.iv with
  | none => rw [SecureProfileStore.decryptProfile, hdd] at h; cases h
  | some u =>
    rw [SecureProfileStore.decryptProfile, hdd] at h
    injection h with h1
    rw [← h1]

theorem decryptProfile_encryptProfile (c : Cipher) (hc : CipherCorrect c)
    (iv : String) (now : Nat) (p : ConnectionProfile) :
    SecureProfileStore.decryptProfile c (SecureProfileStore.encryptProfile c iv now p)
      = some (ConnectionProfile.mk p.name p.uri p.database p.profileAlias p.tags p.options
          (some (p.metadata.getD { defaultMeta with createdAt := some now }))) := by
  simp [SecureProfileStore.decryptProfile, SecureProfileStore.encryptProfile, hc p.uri iv]

theorem names_encProfiles (c : Cipher) (ivGen : Nat → String) (now : Nat) :
    ∀ (m : PMap) (i : Nat),
      (SecureProfileStore.encProfiles c ivGen now i m).map (fun sp => sp.name)
        = m.map (fun e => e.2.name) := by
  intro m
  induction m with
  | nil => intro i; rfl
  | cons e rest ih =>
    intro i
    simp [SecureProfileStore.encProfiles, SecureProfileStore.encryptProfile, ih (i + 1)]

theorem mem_encProfiles_of_alget (c : Cipher) (ivGen : Nat → String) (now : Nat) :
    ∀ (m : PMap) (i : Nat) (k : String) (v : ConnectionProfile), alget m k = some v →
      ∃ j, SecureProfileStore.encryptProfile c (ivGen j) now v
        ∈ SecureProfileStore.encProfiles c ivGen now i m := by
  intro m
  induction m with
  | nil => intro i k v h; cases h
  | cons e rest ih =>
    intro i k v h
    by_cases he : e.1 = k
    · rw [alget, if_pos he] at h
      injection h with h1
      subst h1
      exact ⟨i, List.mem_cons_self _ _⟩
    · rw [alget, if_neg he] at h
      obtain ⟨j, hj⟩ := ih (i + 1) k v h
      exact ⟨j, List.mem_cons_of_mem _ hj⟩

theorem decryptFold_skip (c : Cipher) :
    ∀ (l : List StoredProfile) (acc : PMap) (k : String),
      (∀ sp ∈ l, sp.name ≠ k) →
      alget (SecureProfileStore.decryptFold c acc l) k = alget acc k := by
  intro l
  induction l with
  | nil => intro acc k _; rfl
  | cons sp rest ih =>
    intro acc k hall
    cases hdec : SecureProfileStore.decryptProfile c sp with
    | none =>
      rw [show SecureProfileStore.decryptFold c acc (sp :: rest)
          = SecureProfileStore.decryptFold c acc rest from by
        simp [SecureProfileStore.decryptFold, hdec]]
      exact ih acc k fun x hx => hall x (List.mem_cons_of_mem sp hx)
    | some p =>
      rw [show SecureProfileStore.decryptFold c acc (sp :: rest)
          = SecureProfileStore.decryptFold c (alset acc p.name p) rest from by
        simp [SecureProfileStore.decryptFold, hdec]]
      rw [ih (alset acc p.name p) k fun x hx => hall x (List.mem_cons_of_mem sp hx)]
      exact alget_alset_ne acc p.name k p
        (by rw [name_decryptProfile c sp p hdec]; exact hall sp (List.mem_cons_self sp rest))

theorem decryptFold_get (c : Cipher) :
    ∀ (l : List StoredProfile) (acc : PMap) (sp : StoredProfile) (q : ConnectionProfile),
      sp ∈ l → (l.map (fun s => s.name)).Nodup →
      SecureProfileStore.decryptProfile c sp = some q →
      alget (SecureProfileStore.decryptFold c acc l) sp.name = some q := by
  intro l
  induction l with
  | nil => intro acc sp q hmem _ _; cases hmem
  | cons e rest ih =>
    intro acc sp q hmem hnd hdec
    rcases List.mem_cons.1 hmem with heq | hmem2
    · subst heq
      rw [show SecureProfileStore.decryptFold c acc (sp :: rest)
          = SecureProfileStore.decryptFold c (alset acc q.name q) rest from by
        simp [SecureProfileStore.decryptFold, hdec]]
      have hnotin : ∀ x ∈ rest, x.name ≠ sp.name := by
        intro x hx hxe
        have hmm : sp.name ∈ List.map (fun s => s.name) rest :=
          hxe ▸ List.mem_map.2 ⟨x, hx, rfl⟩
        exact (List.nodup_cons.1 hnd).1 hmm
      rw [decryptFold_skip c rest (alset acc q.name q) sp.name hnotin]
      rw [← name_decryptProfile c sp q hdec]
      exact alget_alset_self acc q.name q
    · cases hde : SecureProfileStore.decryptProfile c e with
      | none =>
        rw [show SecureProfileStore.decryptFold c acc (e :: rest)
            = SecureProfileStore.decryptFold c acc rest from by
          simp [SecureProfileStore.decryptFold, hde]]
        exact ih acc sp q hmem2 (List.nodup_cons.1 hnd).2 hdec
      | some pe =>
        rw [show SecureProfileStore.decryptFold c acc (e :: rest)
            = SecureProfileStore.decryptFold c (alset acc pe.name pe) rest from by
          simp [SecureProfileStore.decryptFold, hde]]
        exact ih (alset acc pe.name pe) sp q hmem2 (List.nodup_cons.1 hnd).2 hdec

theorem alget_none_not_mem {α : Type} (m : List (String × α)) (k : String)
    (h : alget m k = none) : k ∉ alkeys m := by
  induction m with
  | nil => simp [alkeys]
  | cons e rest ih =>
    by_cases he : e.1 = k
    · rw [alget, if_pos he] at h; cases h
    · rw [alget, if_neg he] at h
      simp only [alkeys, List.map_cons, List.mem_cons, not_or]
      exact ⟨fun hk => he hk.symm, ih h⟩

theorem alkeys_alset_of_some {α : Type} (m : List (String × α)) (k : String) (v w : α)
    (hg : alget m k = some w) : alkeys (alset m k v) = alkeys m := by
  induction m with
  | nil => cases hg
  | cons e rest ih =>
    by_cases he : e.1 = k
    · simp [alset, he, alkeys]
    · rw [alget, if_neg he] at hg
      simp only [alset, if_neg he, alkeys, List.map_cons]
      rw [show List.map Prod.fst (alset rest k v) = List.map Prod.fst rest from ih hg]

theorem nodup_alkeys_alset {α : Type} (m : List (String × α)) (k : String) (v : α)
    (h : (alkeys m).Nodup) : (alkeys (alset m k v)).Nodup := by
  cases hg : alget m k with
  | some w =>
    rw [alkeys_alset_of_some m k v w hg]
    exact h
  | none =>
    rw [alset_of_alget_none m k v hg]
    simp only [alkeys, List.map_append, List.map_cons, List.map_nil]
    rw [List.nodup_append]
    exact ⟨h, List.nodup_singleton k, by
      intro a ha hb
      simp at hb
      subst hb
      exact alget_none_not_mem m a hg ha⟩

theorem wf_values_alset (m : PMap) (k : String) (v : ConnectionProfile)
    (hall : ∀ e ∈ m, e.2.name = e.1) (hv : v.name = k) :
    ∀ e ∈ alset m k v, e.2.name = e.1 := by
  induction m with
  | nil =>
    intro e he
    simp [alset] at he
    rw [he]
    exact hv
  | cons x rest ih =>
    intro e he
    by_cases hx : x.1 = k
    · rw [show alset (x :: rest) k v = (k, v) :: rest from by simp [alset, hx]] at he
      rcases List.mem_cons.1 he with h1 | h1
      · rw [h1]; exact hv
      · exact hall e (List.mem_cons_of_mem x h1)
    · rw [show alset (x :: rest) k v = x :: alset rest k v from by simp [alset, hx]] at he
      rcases List.mem_cons.1 he with h1 | h1
      · rw [h1]; exact hall x (List.mem_cons_self x rest)
      · exact ih (fun y hy => hall y (List.mem_cons_of_mem x hy)) e h1

theorem wf_alset (m : PMap) (k : String) (v : ConnectionProfile)
    (hwf : SecureProfileStore.WFmap m) (hv : v.name = k) :
    SecureProfileStore.WFmap (alset m k v) :=
  ⟨nodup_alkeys_alset m k v hwf.1, wf_values_alset m k v hwf.2 hv⟩

theorem wf_decryptFold (c : Cipher) :
    ∀ (l : List StoredProfile) (acc : PMap), SecureProfileStore.WFmap acc →
      SecureProfileStore.WFmap (SecureProfileStore.decryptFold c acc l) := by
  intro l
  induction l with
  | nil => intro acc h; exact h
  | cons sp rest ih =>
    intro acc h
    cases hdec : SecureProfileStore.decryptProfile c sp with
    | none =>
      rw [show SecureProfileStore.decryptFold c acc (sp :: rest)
          = SecureProfileStore.decryptFold c acc rest from by
        simp [SecureProfileStore.decryptFold, hdec]]
      exact ih acc h
    | some p =>
      rw [show SecureProfileStore.decryptFold c acc (sp :: rest)
          = SecureProfileStore.decryptFold c (alset acc p.name p) rest from by
        simp [SecureProfileStore.decryptFold, hdec]]
      exact ih (alset acc p.name p) (wf_alset acc p.name p h rfl)

theorem wf_nil : SecureProfileStore.WFmap [] :=
  ⟨List.nodup_nil, fun e he => absurd he (List.not_mem_nil e)⟩

theorem loadProfiles_WF (c : Cipher) (st : StoreState) (m : PMap) (b : Bool)
    (st1 : StoreState) (hwf : SecureProfileStore.WFmap st.cache)
    (h : SecureProfileStore.loadProfiles c st = (.ok (m, b), st1)) :
    SecureProfileStore.WFmap m := by
  rw [SecureProfileStore.loadProfiles] at h
  split at h
  · injection h with h1 h2; cases h1
  · injection h with h1 h2
    injection h1 with h3
    injection h3 with h4 h5
    rw [← h4]
    exact wf_nil
  · rename_i s mt hpres
    split at h
    · injection h with h1 h2
      injection h1 with h3
      injection h3 with h4 h5
      rw [← h4]
      exact hwf
    · injection h with h1 h2
      injection h1 with h3
      injection h3 with h4 h5
      rw [← h4]
      exact wf_decryptFold c s.profiles [] wf_nil

theorem map_name_eq_alkeys (m : PMap) (hwf : ∀ e ∈ m, e.2.name = e.1) :
    m.map (fun e => e.2.name) = alkeys m := by
  induction m with
  | nil => rfl
  | cons e rest ih =>
    simp only [List.map_cons, alkeys]
    rw [hwf e (List.mem_cons_self e rest)]
    rw [show rest.map (fun e => e.2.name) = alkeys rest from
      ih fun x hx => hwf x (List.mem_cons_of_mem e hx)]
    rfl

/-- **C1.** For every valid profile `P` successfully added via `add`, a
subsequent `get(P.name)` returns a profile whose `uri`, `database`, and `name`
equal those of `P` — both through the write-through cache and through a fresh
store instance that re-reads and decrypts the persisted file (the full
encrypt → persist → decrypt → read round trip), assuming the AES library is a
correct cipher (`CipherCorrect`) and the starting cache is a well-formed map. -/
theorem C1_add_get_roundtrip (c : Cipher) (ivGen : Nat → String) (now : Nat)
    (st : StoreState) (p : ConnectionProfile) (st2 : StoreState)
    (hc : CipherCorrect c)
    (hwf : SecureProfileStore.WFmap st.cache)
    (hadd : SecureProfileStore.add c ivGen now st p = (.ok (), st2)) :
    (∃ q, (SecureProfileStore.get c st2 p.name).1 = .ok (some q) ∧
      q.uri = p.uri ∧ q.database = p.database ∧ q.name = p.name) ∧
    (∀ stFresh : StoreState, stFresh.fs = st2.fs → stFresh.cache = [] →
      ∃ q, (SecureProfileStore.get c stFresh p.name).1 = .ok (some q) ∧
        q.uri = p.uri ∧ q.database = p.database ∧ q.name = p.name) := by
  obtain ⟨m, b, st1, hv, hl, hd, hs⟩ := add_ok_destruct c ivGen now st p () st2 hadd
  have hio : ∀ e, st1.fs.file ≠ .ioError e := by
    intro e he
    exact loadProfiles_not_ioError c st m b st1 hl e
      (by rw [← loadProfiles_file_eq c st _ st1 hl]; exact he)
  obtain ⟨stor, hsp, hshape⟩ := saveProfiles_ok_shape c ivGen now st1
    (alset m p.name (SecureProfileStore.stampCreated now p)) hio
  rw [hshape] at hs
  injection hs with h1 h2
  subst h2
  set mp : PMap := alset m p.name (SecureProfileStore.stampCreated now p) with hmp
  have hmpA : alget mp p.name = some (SecureProfileStore.stampCreated now p) :=
    alget_alset_self m p.name _
  have hwfm : SecureProfileStore.WFmap m := loadProfiles_WF c st m b st1 hwf hl
  have hwfmp : SecureProfileStore.WFmap mp := wf_alset m p.name _ hwfm rfl
  constructor
  · have hload2 := loadProfiles_after_save c stor mp now (alget_some_ne_nil mp p.name _ hmpA)
    refine ⟨SecureProfileStore.stampCreated now p, ?_, rfl, rfl, rfl⟩
    simp [SecureProfileStore.get, hload2, hmpA]
  · intro stFresh hfs hcache
    have hfile : stFresh.fs.file = .present stor now := by rw [hfs]
    have hmiss : ¬ (now = stFresh.lastModified ∧ stFresh.cache ≠ []) := by
      intro hcon
      exact hcon.2 hcache
    have hload3 := loadProfiles_reload c stFresh stor now hfile hmiss
    have hnames : (stor.profiles.map (fun s => s.name)).Nodup := by
      rw [hsp, names_encProfiles c ivGen now mp 0,
        map_name_eq_alkeys mp hwfmp.2]
      exact hwfmp.1
    obtain ⟨j, hmem⟩ := mem_encProfiles_of_alget c ivGen now mp 0 p.name
      (SecureProfileStore.stampCreated now p) hmpA
    rw [← hsp] at hmem
    have hdec := decryptProfile_encryptProfile c hc (ivGen j) now
      (SecureProfileStore.stampCreated now p)
    have hfold := decryptFold_get c stor.profiles []
      (SecureProfileStore.encryptProfile c (ivGen j) now
        (SecureProfileStore.stampCreated now p))
      (ConnectionProfile.mk (SecureProfileStore.stampCreated now p).name
        (SecureProfileStore.stampCreated now p).uri
        (SecureProfileStore.stampCreated now p).database
        (SecureProfileStore.stampCreated now p).profileAlias
        (SecureProfileStore.stampCreated now p).tags
        (SecureProfileStore.stampCreated now p).options
        (some ((SecureProfileStore.stampCreated now p).metadata.getD
          { defaultMeta with createdAt := some now })))
      hmem hnames hdec
    rw [show (SecureProfileStore.encryptProfile c (ivGen j) now
        (SecureProfileStore.stampCreated now p)).name = p.name from rfl] at hfold
    refine ⟨ConnectionProfile.mk (SecureProfileStore.stampCreated now p).name
        (SecureProfileStore.stampCreated now p).uri
        (SecureProfileStore.stampCreated now p).database
        (SecureProfileStore.stampCreated now p).profileAlias
        (SecureProfileStore.stampCreated now p).tags
        (SecureProfileStore.stampCreated now p).options
        (some ((SecureProfileStore.stampCreated now p).metadata.getD
          { defaultMeta with createdAt := some now })), ?_, rfl, rfl, rfl⟩
    have hget2 : (SecureProfileStore.get c stFresh p.name).1
        = .ok (alget (SecureProfileStore.decryptFold c [] stor.profiles) p.name) := by
      simp [SecureProfileStore.get, hload3]
    rw [hget2, hfold]

theorem C1_witness :
    CipherCorrect idCipher ∧
    (∃ q, (SecureProfileStore.get idCipher stAdd1 "local").1 = .ok (some q) ∧
      q.uri = pLocal.uri ∧ q.database = pLocal.database ∧ q.name = pLocal.name) ∧
    (∃ q, (SecureProfileStore.get idCipher (StoreState.mk stAdd1.fs [] 0) "local").1
        = .ok (some q) ∧
      q.uri = pLocal.uri ∧ q.database = pLocal.database ∧ q.name = pLocal.name) := by
  have hc : CipherCorrect idCipher := fun u iv => rfl
  have h := C1_add_get_roundtrip idCipher ivZero 1 emptyStore pLocal stAdd1 hc wf_nil rfl
  exact ⟨hc, h.1, h.2 (StoreState.mk stAdd1.fs [] 0) rfl rfl⟩

end MongoQuick
